import Mathlib

/-
  Verification development for the MiniPython compiler front end
  (lexer.py, parser.py, ast.py, visitor.py), shallowly embedded in Lean 4.

  Modelling conventions:
  - Python `self.current_char` and `self.current_token` are cached fields that
    always equal `text[pos] if pos < len(text) else None` resp.
    `tokens[i] if i < len(tokens) else None`; they are modelled as the derived
    lookups `Lexer.current_char` and `Parser.current_token`.
  - Python `while` loops that advance `pos` by exactly one character per
    iteration are modelled as structural recursion on the exact remaining
    character count (text.length - pos); when that count is 0 the current
    character is None, which is precisely when the Python loop stops, so the
    gas-0 base case coincides with the loop exit.
  - Loops whose per-iteration advance can exceed one use an upper-bound gas
    with a distinguished fuel-exhaustion error; theorems below show that
    branch is unreachable for the wrappers that supply the gas.
  - A raised Python exception in the lexer is an `Except.error (.fault msg)`.
  - A Python float literal value `float(digits)` is represented by the digit
    string that determines it; no claim depends on float formatting.
  - Printing to stdout is modelled by appending the printed line to an `out`
    list carried in the state.
-/

namespace MiniPython

/-- The token kind enumeration of lexer.py (class TokenType). -/
inductive TokenType where
  | VAR | DEF | IF | ELSE | WHILE | RETURN
  | ID | INT | FLOAT | STRING
  | PLUS | MINUS | MULTIPLY | DIVIDE | ASSIGN | EQ | NEQ | LT | GT
  | LPAREN | RPAREN | LBRACE | RBRACE | SEMI | COMMA
  | AND | OR | LTE | GTE
  | EOF
deriving DecidableEq, Repr

/-- The Python string value of each TokenType constant, as interpolated into
diagnostic messages. -/
def TokenType.toStr : TokenType → String
  | .VAR => "VAR" | .DEF => "DEF" | .IF => "IF" | .ELSE => "ELSE"
  | .WHILE => "WHILE" | .RETURN => "RETURN"
  | .ID => "ID" | .INT => "INT" | .FLOAT => "FLOAT" | .STRING => "STRING"
  | .PLUS => "PLUS" | .MINUS => "MINUS" | .MULTIPLY => "MULTIPLY"
  | .DIVIDE => "DIVIDE" | .ASSIGN => "ASSIGN" | .EQ => "EQ" | .NEQ => "NEQ"
  | .LT => "LT" | .GT => "GT"
  | .LPAREN => "LPAREN" | .RPAREN => "RPAREN" | .LBRACE => "LBRACE"
  | .RBRACE => "RBRACE" | .SEMI => "SEMI" | .COMMA => "COMMA"
  | .AND => "AND" | .OR => "OR" | .LTE => "LTE" | .GTE => "GTE"
  | .EOF => "EOF"

/-- The dynamically typed token payload: int for INT tokens, the float lexeme
for FLOAT tokens, a string for identifiers, keywords, strings and operator
lexemes, and None for EOF. -/
inductive TValue where
  | int (n : Int)
  | float (s : String)
  | str (s : String)
  | none
deriving DecidableEq, Repr

/-- Python str() of a token value, as used by string interpolation in
visitor.py (a float is rendered by its lexeme, see the header comment). -/
def TValue.pyStr : TValue → String
  | .int n => toString n
  | .float s => s
  | .str s => s
  | .none => "None"

/-- A token of lexer.py (class Token): kind, payload, line, column. -/
structure Token where
  type : TokenType
  value : TValue
  line : Nat
  column : Nat
deriving DecidableEq, Repr

/-- AST expression nodes of ast.py. The three literal subclasses are the
single `literal` constructor with their distinguishing `type_name` field. -/
inductive Expr where
  | literal (value : TValue) (type_name : String)
  | identifier (name : TValue)
  | binaryOp (left : Expr) (op : TValue) (right : Expr)
  | unaryOp (op : TValue) (expr : Expr)
  | callExpression (func_name : TValue) (arguments : List Expr)
deriving Repr

/-- Constructor IntegerLiteral of ast.py. -/
def IntegerLiteral (value : TValue) : Expr := .literal value ("Integer")

/-- Constructor FloatLiteral of ast.py. -/
def FloatLiteral (value : TValue) : Expr := .literal value ("Float")

/-- Constructor StringLiteral of ast.py. -/
def StringLiteral (value : TValue) : Expr := .literal value ("String")

mutual
/-- AST statement nodes of ast.py. -/
inductive Stmt where
  | varDeclaration (var_name : TValue) (value : Expr)
  | assignment (var_name : TValue) (value : Expr)
  | ifStatement (condition : Expr) (then_block : Block) (else_block : Option Block)
  | whileStatement (condition : Expr) (body : Block)
  | functionDeclaration (func_name : TValue) (params : List TValue) (body : Block)
  | returnStatement (value : Expr)
  | expressionStatement (expression : Expr)
deriving Repr

/-- AST block node of ast.py (class Block). -/
inductive Block where
  | mk (statements : List Stmt)
deriving Repr
end

/-- The Program root node of ast.py. -/
structure Program where
  statements : List Stmt
deriving Repr

namespace Lexer

/-- The Lexer state (class Lexer of lexer.py): source text as a character
list, scan position, 1-based line, column. -/
structure LexerSt where
  text : List Char
  pos : Nat
  line : Nat
  column : Nat
deriving Repr

/-- Python self.current_char, the derived lookup text[pos] or None. -/
def current_char (s : LexerSt) : Option Char := s.text.get? s.pos

/-- Lexer.advance of lexer.py. -/
def advance (s : LexerSt) : LexerSt :=
  let lc := if current_char s = some '\n' then (s.line + 1, 0) else (s.line, s.column)
  let pos := s.pos + 1
  if pos < s.text.length then
    { s with line := lc.1, column := lc.2 + 1, pos := pos }
  else
    { s with line := lc.1, column := lc.2, pos := pos }

/-- Lexer.peek of lexer.py: one character of lookahead. -/
def peekChar (s : LexerSt) : Option Char := s.text.get? (s.pos + 1)

/-- Whether a character is in the Python whitespace string of skip_whitespace. -/
def isWs (c : Char) : Bool := c = ' ' || c = '\t' || c = '\r' || c = '\n'

/-- Loop body of Lexer.skip_whitespace, structural on the exact remaining
character count. -/
def skip_whitespace_go : Nat → LexerSt → LexerSt
  | 0, s => s
  | gas + 1, s =>
    match current_char s with
    | some c => if isWs c then skip_whitespace_go gas (advance s) else s
    | Option.none => s

/-- Lexer.skip_whitespace of lexer.py. -/
def skip_whitespace (s : LexerSt) : LexerSt :=
  skip_whitespace_go (s.text.length - s.pos) s

/-- Loop body of Lexer.skip_comment: advance until newline or end of input. -/
def skip_comment_go : Nat → LexerSt → LexerSt
  | 0, s => s
  | gas + 1, s =>
    match current_char s with
    | some c => if c ≠ '\n' then skip_comment_go gas (advance s) else s
    | Option.none => s

/-- Lexer.skip_comment of lexer.py: skip to the newline, then skip it too. -/
def skip_comment (s : LexerSt) : LexerSt :=
  advance (skip_comment_go (s.text.length - s.pos) s)

/-- Digit-run accumulation loop shared by the two loops of Lexer.number. -/
def digits_go : Nat → LexerSt → String → String × LexerSt
  | 0, s, acc => (acc, s)
  | gas + 1, s, acc =>
    match current_char s with
    | some c => if c.isDigit then digits_go gas (advance s) (acc.push c) else (acc, s)
    | Option.none => (acc, s)

/-- Python int() of a nonempty decimal digit string. -/
def pyInt (str : String) : Int :=
  str.data.foldl (fun a c => a * 10 + ((c.toNat : Int) - 48)) 0

/-- Lexer.number of lexer.py: read an integer or float literal. -/
def number (s : LexerSt) : Token × LexerSt :=
  let start_col := s.column
  let rs := digits_go (s.text.length - s.pos) s ("")
  match current_char rs.2 with
  | some c =>
    if c = '.' then
      let s2 := advance rs.2
      let rs2 := digits_go (s2.text.length - s2.pos) s2 (rs.1.push '.')
      (Token.mk .FLOAT (.float rs2.1) rs2.2.line start_col, rs2.2)
    else
      (Token.mk .INT (.int (pyInt rs.1)) rs.2.line start_col, rs.2)
  | Option.none => (Token.mk .INT (.int (pyInt rs.1)) rs.2.line start_col, rs.2)

/-- A lexer failure: either a genuine raised lex fault (Lexer.error of
lexer.py) or the fuel marker of the bounding gas, shown unreachable below. -/
inductive LexErr where
  | fault (msg : String)
  | fuel
deriving DecidableEq, Repr

/-- The message format of Lexer.error of lexer.py. -/
def lexErrMsg (s : LexerSt) (message : String) : String :=
  "Lexer error at line " ++ toString s.line ++ ", column " ++ toString s.column ++ ": " ++ message

/-- String-body accumulation loop of Lexer.string. -/
def string_go : Nat → LexerSt → String → String × LexerSt
  | 0, s, acc => (acc, s)
  | gas + 1, s, acc =>
    match current_char s with
    | some c => if c ≠ '"' then string_go gas (advance s) (acc.push c) else (acc, s)
    | Option.none => (acc, s)

/-- Lexer.string of lexer.py: read a string literal; unterminated is a raised
lex fault. -/
def string (s : LexerSt) : Except LexErr (Token × LexerSt) :=
  let start_col := s.column
  let s1 := advance s
  let rs := string_go (s1.text.length - s1.pos) s1 ("")
  match current_char rs.2 with
  | Option.none => .error (.fault (lexErrMsg rs.2 ("Unterminated string")))
  | some _ =>
    let s3 := advance rs.2
    .ok (Token.mk .STRING (.str rs.1) s3.line start_col, s3)

/-- Identifier-run accumulation loop of Lexer.identifier; Python isalnum is
modelled by Char.isAlphanum. -/
def ident_go : Nat → LexerSt → String → String × LexerSt
  | 0, s, acc => (acc, s)
  | gas + 1, s, acc =>
    match current_char s with
    | some c =>
      if c.isAlphanum || c = '_' then ident_go gas (advance s) (acc.push c) else (acc, s)
    | Option.none => (acc, s)

/-- The keyword table of Lexer.identifier. -/
def keywordType (r : String) : TokenType :=
  if r = "var" then .VAR
  else if r = "def" then .DEF
  else if r = "if" then .IF
  else if r = "else" then .ELSE
  else if r = "while" then .WHILE
  else if r = "return" then .RETURN
  else .ID

/-- Lexer.identifier of lexer.py: read an identifier or keyword. -/
def identifier (s : LexerSt) : Token × LexerSt :=
  let start_col := s.column
  let rs := ident_go (s.text.length - s.pos) s ("")
  (Token.mk (keywordType rs.1) (.str rs.1) rs.2.line start_col, rs.2)

/-- The single-character token table of Lexer.get_next_token. -/
def singleTok (c : Char) : Option TokenType :=
  if c = '+' then some .PLUS
  else if c = '-' then some .MINUS
  else if c = '*' then some .MULTIPLY
  else if c = '/' then some .DIVIDE
  else if c = '(' then some .LPAREN
  else if c = ')' then some .RPAREN
  else if c = '{' then some .LBRACE
  else if c = '}' then some .RBRACE
  else if c = ';' then some .SEMI
  else if c = ',' then some .COMMA
  else Option.none

/-- Lexer.get_next_token of lexer.py, structural on an upper-bound gas; the
whitespace and comment branches are the continue branches of the Python
while loop. The duplicated dead Python branches for lone < and > after the
& and | cases are unreachable and omitted. -/
def gnt_go : Nat → LexerSt → Except LexErr (Token × LexerSt)
  | 0, _ => .error .fuel
  | gas + 1, s =>
    match current_char s with
    | Option.none => .ok (Token.mk .EOF .none s.line s.column, s)
    | some c =>
      if isWs c then gnt_go gas (skip_whitespace s)
      else if c = '#' then gnt_go gas (skip_comment s)
      else if c.isDigit then .ok (number s)
      else if c = '"' then string s
      else if c.isAlpha || c = '_' then .ok (identifier s)
      else
        let start_col := s.column
        if c = '=' then
          let s1 := advance s
          if current_char s1 = some '=' then
            let s2 := advance s1
            .ok (Token.mk .EQ (.str ("==")) s2.line start_col, s2)
          else .ok (Token.mk .ASSIGN (.str ("=")) s1.line start_col, s1)
        else if c = '!' then
          let s1 := advance s
          if current_char s1 = some '=' then
            let s2 := advance s1
            .ok (Token.mk .NEQ (.str ("!=")) s2.line start_col, s2)
          else .error (.fault (lexErrMsg s1 ("Unexpected character: " ++ c.toString)))
        else if c = '<' then
          let s1 := advance s
          if current_char s1 = some '=' then
            let s2 := advance s1
            .ok (Token.mk .LTE (.str ("<=")) s2.line start_col, s2)
          else .ok (Token.mk .LT (.str ("<")) s1.line start_col, s1)
        else if c = '>' then
          let s1 := advance s
          if current_char s1 = some '=' then
            let s2 := advance s1
            .ok (Token.mk .GTE (.str (">=")) s2.line start_col, s2)
          else .ok (Token.mk .GT (.str (">")) s1.line start_col, s1)
        else if c = '&' then
          let s1 := advance s
          if current_char s1 = some '&' then
            let s2 := advance s1
            .ok (Token.mk .AND (.str ("&&")) s2.line start_col, s2)
          else .error (.fault (lexErrMsg s1 ("Unexpected character: " ++ c.toString)))
        else if c = '|' then
          let s1 := advance s
          if current_char s1 = some '|' then
            let s2 := advance s1
            .ok (Token.mk .OR (.str ("||")) s2.line start_col, s2)
          else .error (.fault (lexErrMsg s1 ("Unexpected character: " ++ c.toString)))
        else
          match singleTok c with
          | some tt =>
            let s1 := advance s
            .ok (Token.mk tt (.str c.toString) s1.line start_col, s1)
          | Option.none => .error (.fault (lexErrMsg s ("Unexpected character: " ++ c.toString)))

/-- Lexer.get_next_token with its gas supplied. -/
def get_next_token (s : LexerSt) : Except LexErr (Token × LexerSt) :=
  gnt_go (s.text.length - s.pos + 1) s

/-- The loop of Lexer.tokenize, structural on an upper-bound gas. -/
def tokenize_go : Nat → LexerSt → List Token → Except LexErr (List Token)
  | 0, _, _ => .error .fuel
  | gas + 1, s, acc =>
    match get_next_token s with
    | .error e => .error e
    | .ok (t, s1) =>
      if t.type = .EOF then .ok (acc ++ [t]) else tokenize_go gas s1 (acc ++ [t])

/-- Lexer.tokenize of lexer.py. -/
def tokenize (s : LexerSt) : Except LexErr (List Token) :=
  tokenize_go (s.text.length - s.pos + 1) s []

/-- Lexer.__init__ of lexer.py over a source string. -/
def mkLexer (text : String) : LexerSt :=
  { text := text.data, pos := 0, line := 1, column := 1 }

end Lexer

namespace Parser

/-- The Parser state (class Parser of parser.py): the lexer text (used for
diagnostic excerpts), the eagerly produced token list, the cursor index, the
fault flag, and the list of printed diagnostic lines. -/
structure ParserSt where
  text : String
  tokens : List Token
  current_token_index : Nat
  had_error : Bool
  out : List String
deriving Repr

/-- Python self.current_token, the derived lookup tokens[i] or None; this
also matches the initialisation tokens[0] if tokens else None. -/
def current_token (s : ParserSt) : Option Token :=
  s.tokens.get? s.current_token_index

/-- The synchronizing token set of Parser.synchronize. -/
def sync_tokens : List TokenType :=
  [.SEMI, .RBRACE, .IF, .WHILE, .DEF, .RETURN, .VAR]

/-- Discard loop of Parser.synchronize, structural on the exact remaining
token count (gas 0 coincides with current_token = None). -/
def synchronize_go : Nat → ParserSt → ParserSt
  | 0, s => s
  | gas + 1, s =>
    match current_token s with
    | some tok =>
      if tok.type ∈ sync_tokens then s
      else synchronize_go gas { s with current_token_index := s.current_token_index + 1 }
    | Option.none => s

/-- Trailing step of Parser.synchronize: additionally consume the stop token
when it is a `;`. -/
def synchronize_finish (s1 : ParserSt) : ParserSt :=
  match current_token s1 with
  | some tok =>
    if tok.type = .SEMI then { s1 with current_token_index := s1.current_token_index + 1 }
    else s1
  | Option.none => s1

/-- Parser.synchronize of parser.py: discard until a synchronizing token or
exhaustion, then additionally consume a `;` stop token. -/
def synchronize (s : ParserSt) : ParserSt :=
  synchronize_finish (synchronize_go (s.tokens.length - s.current_token_index) s)

/-- Caret line printed under the offending column by Parser.error. -/
def caretLine (col : Nat) : String :=
  "   " ++ String.mk (List.replicate (col - 1) ' ') ++ "^"

/-- Splitting accumulation loop for splitLines. -/
def splitLinesGo : List Char → String → List String
  | [], acc => [acc]
  | c :: rest, acc =>
    if c = '\n' then acc :: splitLinesGo rest ("")
    else splitLinesGo rest (acc.push c)

/-- Python text.split of a single newline separator, as used by
Parser.error to recover the offending source line. -/
def splitLines (s : String) : List String :=
  splitLinesGo s.data ""

/-- The diagnostic lines printed by Parser.error at the given position:
header, message, and the offending source line with a caret when the line
number is within the source. -/
def errorReport (message : String) (s : ParserSt) (line col : Nat) : List String :=
  let out1 := s.out ++
    ["\n❌ PARSER ERROR at line " ++ toString line ++ ", column " ++ toString col ++ ":",
     "   " ++ message]
  let lines := splitLines s.text
  if line - 1 < lines.length then
    out1 ++ ["   " ++ lines.getD (line - 1) (""), caretLine col]
  else out1

/-- Parser.error of parser.py: at EOF only the fault flag is set; otherwise
the diagnostic is printed at the current token position (line 1, column 1
when the cursor is past the end) and panic-mode synchronization runs. The
Python hasattr guard on lexer.text is always true and is omitted. -/
def error (message : String) (s : ParserSt) : ParserSt :=
  match current_token s with
  | some tok =>
    if tok.type = .EOF then { s with had_error := true }
    else
      synchronize { s with had_error := true,
                           out := errorReport message s tok.line tok.column }
  | Option.none =>
    synchronize { s with had_error := true, out := errorReport message s 1 1 }

/-- Parser.eat of parser.py: consume the current token when it matches,
otherwise report the expectation mismatch. -/
def eat (token_type : TokenType) (s : ParserSt) : ParserSt :=
  match current_token s with
  | some tok =>
    if tok.type = token_type then
      { s with current_token_index := s.current_token_index + 1 }
    else
      error ("Expected " ++ token_type.toStr ++ ", found " ++ tok.type.toStr) s
  | Option.none =>
    error ("Expected " ++ token_type.toStr ++ ", found EOF") s

/-- Parser.peek of parser.py. -/
def peek (token_type : TokenType) (s : ParserSt) : Bool :=
  match current_token s with
  | some tok => decide (tok.type = token_type)
  | Option.none => false

/-- Parser.peek_ahead of parser.py (default n = 1 at every call site). -/
def peek_ahead (s : ParserSt) (n : Nat) : Token :=
  match s.tokens.get? (s.current_token_index + n) with
  | some t => t
  | Option.none => Token.mk .EOF .none 0 0

/-- A parse computation outcome other than a value: the Python AttributeError
raised by dereferencing current_token when it is None, or fuel exhaustion of
the structural embedding (irrelevant for sufficiently large fuel). -/
inductive PErr where
  | noneType
  | fuel
deriving DecidableEq, Repr

mutual

/-- Parser.parse_factor of parser.py. The initial `token = self.current_token`
followed by `token.type` raises AttributeError when the current token is
None, which the embedding surfaces as PErr.noneType. -/
def parse_factor : Nat → ParserSt → Except PErr (Expr × ParserSt)
  | 0, _ => .error .fuel
  | f + 1, s =>
    match current_token s with
    | Option.none => .error .noneType
    | some token =>
      if token.type = .INT then
        .ok (IntegerLiteral token.value, eat .INT s)
      else if token.type = .FLOAT then
        .ok (FloatLiteral token.value, eat .FLOAT s)
      else if token.type = .STRING then
        .ok (StringLiteral token.value, eat .STRING s)
      else if token.type = .ID then
        if (peek_ahead s 1).type = .LPAREN then parse_call_expression f s
        else .ok (Expr.identifier token.value, eat .ID s)
      else if token.type = .LPAREN then
        match parse_logical_or f (eat .LPAREN s) with
        | .error e => .error e
        | .ok (expr, s1) => .ok (expr, eat .RPAREN s1)
      else if token.type = .PLUS ∨ token.type = .MINUS then
        match parse_factor f (eat token.type s) with
        | .error e => .error e
        | .ok (expr, s1) => .ok (Expr.unaryOp token.value expr, s1)
      else
        let s1 := error ("Unexpected token in factor: " ++ token.type.toStr) s
        .ok (IntegerLiteral (.int 0), eat token.type s1)

/-- Parser.parse_call_expression of parser.py; func_name reads
current_token.value (AttributeError on None). -/
def parse_call_expression : Nat → ParserSt → Except PErr (Expr × ParserSt)
  | 0, _ => .error .fuel
  | f + 1, s =>
    match current_token s with
    | Option.none => .error .noneType
    | some t =>
      let func_name := t.value
      let s1 := eat .LPAREN (eat .ID s)
      if peek .RPAREN s1 then
        .ok (Expr.callExpression func_name [], eat .RPAREN s1)
      else
        match parse_expression f s1 with
        | .error e => .error e
        | .ok (a, s2) =>
          match parse_call_args f [a] s2 with
          | .error e => .error e
          | .ok (arguments, s3) =>
            .ok (Expr.callExpression func_name arguments, eat .RPAREN s3)

/-- Argument list loop of Parser.parse_call_expression (while peek COMMA). -/
def parse_call_args : Nat → List Expr → ParserSt → Except PErr (List Expr × ParserSt)
  | 0, _, _ => .error .fuel
  | f + 1, acc, s =>
    if peek .COMMA s then
      match parse_expression f (eat .COMMA s) with
      | .error e => .error e
      | .ok (a, s1) => parse_call_args f (acc ++ [a]) s1
    else .ok (acc, s)

/-- Parser.parse_term of parser.py. -/
def parse_term : Nat → ParserSt → Except PErr (Expr × ParserSt)
  | 0, _ => .error .fuel
  | f + 1, s =>
    match parse_factor f s with
    | .error e => .error e
    | .ok (node, s1) => parse_term_loop f node s1

/-- Operator loop of Parser.parse_term (* and /). -/
def parse_term_loop : Nat → Expr → ParserSt → Except PErr (Expr × ParserSt)
  | 0, _, _ => .error .fuel
  | f + 1, node, s =>
    match current_token s with
    | some tok =>
      if tok.type = .MULTIPLY ∨ tok.type = .DIVIDE then
        match parse_factor f (eat tok.type s) with
        | .error e => .error e
        | .ok (right, s1) => parse_term_loop f (Expr.binaryOp node tok.value right) s1
      else .ok (node, s)
    | Option.none => .ok (node, s)

/-- Parser.parse_expression of parser.py (the additive level). -/
def parse_expression : Nat → ParserSt → Except PErr (Expr × ParserSt)
  | 0, _ => .error .fuel
  | f + 1, s =>
    match parse_term f s with
    | .error e => .error e
    | .ok (node, s1) => parse_expression_loop f node s1

/-- Operator loop of Parser.parse_expression (+ and -). -/
def parse_expression_loop : Nat → Expr → ParserSt → Except PErr (Expr × ParserSt)
  | 0, _, _ => .error .fuel
  | f + 1, node, s =>
    match current_token s with
    | some tok =>
      if tok.type = .PLUS ∨ tok.type = .MINUS then
        match parse_term f (eat tok.type s) with
        | .error e => .error e
        | .ok (right, s1) => parse_expression_loop f (Expr.binaryOp node tok.value right) s1
      else .ok (node, s)
    | Option.none => .ok (node, s)

/-- Parser.parse_comparison of parser.py. -/
def parse_comparison : Nat → ParserSt → Except PErr (Expr × ParserSt)
  | 0, _ => .error .fuel
  | f + 1, s =>
    match parse_expression f s with
    | .error e => .error e
    | .ok (node, s1) => parse_comparison_loop f node s1

/-- Operator loop of Parser.parse_comparison. -/
def parse_comparison_loop : Nat → Expr → ParserSt → Except PErr (Expr × ParserSt)
  | 0, _, _ => .error .fuel
  | f + 1, node, s =>
    match current_token s with
    | some tok =>
      if tok.type = .GT ∨ tok.type = .LT ∨ tok.type = .GTE ∨ tok.type = .LTE ∨
          tok.type = .EQ ∨ tok.type = .NEQ then
        match parse_expression f (eat tok.type s) with
        | .error e => .error e
        | .ok (right, s1) => parse_comparison_loop f (Expr.binaryOp node tok.value right) s1
      else .ok (node, s)
    | Option.none => .ok (node, s)

/-- Parser.parse_logical_and of parser.py. -/
def parse_logical_and : Nat → ParserSt → Except PErr (Expr × ParserSt)
  | 0, _ => .error .fuel
  | f + 1, s =>
    match parse_comparison f s with
    | .error e => .error e
    | .ok (node, s1) => parse_logical_and_loop f node s1

/-- Operator loop of Parser.parse_logical_and (&&). -/
def parse_logical_and_loop : Nat → Expr → ParserSt → Except PErr (Expr × ParserSt)
  | 0, _, _ => .error .fuel
  | f + 1, node, s =>
    match current_token s with
    | some tok =>
      if tok.type = .AND then
        match parse_comparison f (eat .AND s) with
        | .error e => .error e
        | .ok (right, s1) => parse_logical_and_loop f (Expr.binaryOp node tok.value right) s1
      else .ok (node, s)
    | Option.none => .ok (node, s)

/-- Parser.parse_logical_or of parser.py (the lowest precedence level). -/
def parse_logical_or : Nat → ParserSt → Except PErr (Expr × ParserSt)
  | 0, _ => .error .fuel
  | f + 1, s =>
    match parse_logical_and f s with
    | .error e => .error e
    | .ok (node, s1) => parse_logical_or_loop f node s1

/-- Operator loop of Parser.parse_logical_or (||). -/
def parse_logical_or_loop : Nat → Expr → ParserSt → Except PErr (Expr × ParserSt)
  | 0, _, _ => .error .fuel
  | f + 1, node, s =>
    match current_token s with
    | some tok =>
      if tok.type = .OR then
        match parse_logical_and f (eat .OR s) with
        | .error e => .error e
        | .ok (right, s1) => parse_logical_or_loop f (Expr.binaryOp node tok.value right) s1
      else .ok (node, s)
    | Option.none => .ok (node, s)

/-- Parser.parse_var_declaration of parser.py. -/
def parse_var_declaration : Nat → ParserSt → Except PErr (Stmt × ParserSt)
  | 0, _ => .error .fuel
  | f + 1, s =>
    let s1 := eat .VAR s
    match current_token s1 with
    | Option.none => .error .noneType
    | some t =>
      let s2 := eat .ASSIGN (eat .ID s1)
      match parse_expression f s2 with
      | .error e => .error e
      | .ok (value, s3) => .ok (Stmt.varDeclaration t.value value, eat .SEMI s3)

/-- Parser.parse_assignment of parser.py, with the missing-expression
placeholder policy. -/
def parse_assignment : Nat → ParserSt → Except PErr (Stmt × ParserSt)
  | 0, _ => .error .fuel
  | f + 1, s =>
    match current_token s with
    | Option.none => .error .noneType
    | some t =>
      let s1 := eat .ASSIGN (eat .ID s)
      if peek .SEMI s1 then
        let s2 := eat .SEMI (error ("Missing expression in assignment") s1)
        .ok (Stmt.assignment t.value (IntegerLiteral (.int 0)), s2)
      else
        match parse_expression f s1 with
        | .error e => .error e
        | .ok (value, s2) => .ok (Stmt.assignment t.value value, eat .SEMI s2)

/-- Parser.parse_if_statement of parser.py. -/
def parse_if_statement : Nat → ParserSt → Except PErr (Stmt × ParserSt)
  | 0, _ => .error .fuel
  | f + 1, s =>
    let s1 := eat .LPAREN (eat .IF s)
    match parse_logical_or f s1 with
    | .error e => .error e
    | .ok (condition, s2) =>
      match parse_block f (eat .RPAREN s2) with
      | .error e => .error e
      | .ok (then_block, s3) =>
        match parse_else_clause f s3 with
        | .error e => .error e
        | .ok (else_block, s4) =>
          .ok (Stmt.ifStatement condition then_block else_block, s4)

/-- The else handling of Parser.parse_if_statement (lines 251..259 of
parser.py): an else followed by if recurses into parse_if_statement and
wraps the result in a one-statement Block, a plain else parses a block. -/
def parse_else_clause : Nat → ParserSt → Except PErr (Option Block × ParserSt)
  | 0, _ => .error .fuel
  | f + 1, s =>
    if peek .ELSE s then
      let s1 := eat .ELSE s
      if peek .IF s1 then
        match parse_if_statement f s1 with
        | .error e => .error e
        | .ok (stmt, s2) => .ok (some (Block.mk [stmt]), s2)
      else
        match parse_block f s1 with
        | .error e => .error e
        | .ok (b, s2) => .ok (some b, s2)
    else .ok (Option.none, s)

/-- Parser.parse_while_statement of parser.py. -/
def parse_while_statement : Nat → ParserSt → Except PErr (Stmt × ParserSt)
  | 0, _ => .error .fuel
  | f + 1, s =>
    let s1 := eat .LPAREN (eat .WHILE s)
    match parse_logical_or f s1 with
    | .error e => .error e
    | .ok (condition, s2) =>
      match parse_block f (eat .RPAREN s2) with
      | .error e => .error e
      | .ok (body, s3) => .ok (Stmt.whileStatement condition body, s3)

/-- Parser.parse_function_declaration of parser.py. -/
def parse_function_declaration : Nat → ParserSt → Except PErr (Stmt × ParserSt)
  | 0, _ => .error .fuel
  | f + 1, s =>
    let s1 := eat .DEF s
    match current_token s1 with
    | Option.none => .error .noneType
    | some t =>
      let s2 := eat .LPAREN (eat .ID s1)
      if peek .RPAREN s2 then
        match parse_block f (eat .RPAREN s2) with
        | .error e => .error e
        | .ok (body, s3) => .ok (Stmt.functionDeclaration t.value [] body, s3)
      else
        let first : List TValue × ParserSt :=
          match current_token s2 with
          | some u =>
            if u.type = .ID then (([u.value] : List TValue), eat .ID s2)
            else (([] : List TValue), error ("Expected parameter name") s2)
          | Option.none => (([] : List TValue), error ("Expected parameter name") s2)
        match parse_params_loop f first.1 first.2 with
        | .error e => .error e
        | .ok (params, s3) =>
          match parse_block f (eat .RPAREN s3) with
          | .error e => .error e
          | .ok (body, s4) => .ok (Stmt.functionDeclaration t.value params body, s4)

/-- Parameter loop of Parser.parse_function_declaration (while peek COMMA);
current_token.value is read before eating the ID (AttributeError on None). -/
def parse_params_loop : Nat → List TValue → ParserSt → Except PErr (List TValue × ParserSt)
  | 0, _, _ => .error .fuel
  | f + 1, acc, s =>
    if peek .COMMA s then
      let s1 := eat .COMMA s
      match current_token s1 with
      | Option.none => .error .noneType
      | some u => parse_params_loop f (acc ++ [u.value]) (eat .ID s1)
    else .ok (acc, s)

/-- Parser.parse_return_statement of parser.py. -/
def parse_return_statement : Nat → ParserSt → Except PErr (Stmt × ParserSt)
  | 0, _ => .error .fuel
  | f + 1, s =>
    match parse_expression f (eat .RETURN s) with
    | .error e => .error e
    | .ok (value, s1) => .ok (Stmt.returnStatement value, eat .SEMI s1)

/-- Parser.parse_block of parser.py: on a missing opening brace it reports a
fault and returns an empty Block. -/
def parse_block : Nat → ParserSt → Except PErr (Block × ParserSt)
  | 0, _ => .error .fuel
  | f + 1, s =>
    if ¬ peek .LBRACE s then
      .ok (Block.mk [], error ("Expected \x27\x7b\x27 to start block") s)
    else
      match parse_block_loop f [] (eat .LBRACE s) with
      | .error e => .error e
      | .ok (statements, s1) => .ok (Block.mk statements, eat .RBRACE s1)

/-- Statement loop of Parser.parse_block (until RBRACE or EOF is peeked). -/
def parse_block_loop : Nat → List Stmt → ParserSt → Except PErr (List Stmt × ParserSt)
  | 0, _, _ => .error .fuel
  | f + 1, acc, s =>
    if ¬ peek .RBRACE s ∧ ¬ peek .EOF s then
      match parse_statement f s with
      | .error e => .error e
      | .ok (st, s1) => parse_block_loop f (acc ++ [st]) s1
    else .ok (acc, s)

/-- Parser.parse_expression_statement of parser.py. -/
def parse_expression_statement : Nat → ParserSt → Except PErr (Stmt × ParserSt)
  | 0, _ => .error .fuel
  | f + 1, s =>
    match parse_expression f s with
    | .error e => .error e
    | .ok (expr, s1) => .ok (Stmt.expressionStatement expr, eat .SEMI s1)

/-- Parser.parse_statement of parser.py: statement dispatch by current token,
including the lone-else recovery. -/
def parse_statement : Nat → ParserSt → Except PErr (Stmt × ParserSt)
  | 0, _ => .error .fuel
  | f + 1, s =>
    if peek .VAR s then parse_var_declaration f s
    else if peek .IF s then parse_if_statement f s
    else if peek .WHILE s then parse_while_statement f s
    else if peek .DEF s then parse_function_declaration f s
    else if peek .RETURN s then parse_return_statement f s
    else if peek .ID s then
      if (peek_ahead s 1).type = .ASSIGN then parse_assignment f s
      else parse_expression_statement f s
    else if peek .ELSE s then
      let s1 := eat .ELSE (error ("Unexpected \x27else\x27 without matching \x27if\x27") s)
      .ok (Stmt.expressionStatement (IntegerLiteral (.int 0)), s1)
    else parse_expression_statement f s

/-- Statement loop of Parser.parse_program (while current token is not EOF). -/
def parse_program_loop : Nat → List Stmt → ParserSt → Except PErr (List Stmt × ParserSt)
  | 0, _, _ => .error .fuel
  | f + 1, acc, s =>
    match current_token s with
    | some t =>
      if t.type ≠ .EOF then
        match parse_statement f s with
        | .error e => .error e
        | .ok (st, s1) => parse_program_loop f (acc ++ [st]) s1
      else .ok (acc, s)
    | Option.none => .ok (acc, s)

/-- Parser.parse_program of parser.py. -/
def parse_program : Nat → ParserSt → Except PErr (Program × ParserSt)
  | 0, _ => .error .fuel
  | f + 1, s =>
    match parse_program_loop f [] s with
    | .error e => .error e
    | .ok (statements, s1) => .ok (Program.mk statements, s1)

end

/-- Parser.parse of parser.py: the main entry point, printing the summary
line depending on the fault flag. -/
def parse : Nat → ParserSt → Except PErr (Program × ParserSt)
  | 0, _ => .error .fuel
  | f + 1, s =>
    match parse_program f s with
    | .error e => .error e
    | .ok (ast, s1) =>
      let s2 :=
        if s1.had_error then
          { s1 with out := s1.out ++ ["\n⚠️  Parsing completed with errors"] }
        else
          { s1 with out := s1.out ++ ["✅ Parsing successful"] }
      .ok (ast, s2)

/-- Parser.__init__ of parser.py: tokenize eagerly (a lex fault propagates),
cursor at 0, no fault yet. -/
def init (text : String) : Except Lexer.LexErr ParserSt :=
  match Lexer.tokenize (Lexer.mkLexer text) with
  | .error e => .error e
  | .ok tokens =>
    .ok { text := text, tokens := tokens, current_token_index := 0,
          had_error := false, out := [] }

end Parser

/-- Overall outcome of constructing a Parser on a source text and calling
parse(): a propagated lex fault, an uncaught Python AttributeError
(NoneType dereference) aborting the parse, fuel exhaustion of the embedding,
or a Program together with the fault flag. -/
inductive ParseResult where
  | lexFault
  | pyCrash
  | outOfFuel
  | ok (p : Program) (had_error : Bool)
deriving Repr

/-- Run the whole front end of the repository on a source text. -/
def run_parse (text : String) (fuel : Nat) : ParseResult :=
  match Parser.init text with
  | .error _ => .lexFault
  | .ok s =>
    match Parser.parse fuel s with
    | .error .noneType => .pyCrash
    | .error .fuel => .outOfFuel
    | .ok (p, s1) => .ok p s1.had_error

namespace Visitor

/-- The PrintVisitor state of visitor.py: the shared mutable indent counter
(a Python int) and the lines printed so far. -/
structure PV where
  indent_level : Int
  out : List String
deriving Repr, DecidableEq

/-- PrintVisitor._indent: two spaces per indent level (a non-positive level
yields the empty string, as Python string repetition does). -/
def indentStr (i : Int) : String :=
  String.join (List.replicate i.toNat ("  "))

/-- PrintVisitor._print: emit one line prefixed by the current indent. -/
def pprint (text : String) (s : PV) : PV :=
  { s with out := s.out ++ [indentStr s.indent_level ++ text] }

/-- An increment or decrement of the shared indent counter. -/
def bump (d : Int) (s : PV) : PV :=
  { s with indent_level := s.indent_level + d }

mutual

/-- Double dispatch node.accept(visitor) for expression nodes, resolving to
the visit_literal / visit_identifier / visit_binary_op / visit_unary_op /
visit_call_expression methods of PrintVisitor in visitor.py. -/
def visitExpr : Expr → PV → PV
  | .literal value type_name, s =>
    pprint (type_name ++ "Literal: " ++ value.pyStr) s
  | .identifier name, s =>
    pprint ("Identifier: " ++ name.pyStr) s
  | .binaryOp left op right, s =>
    let s1 := pprint ("BinaryOp: " ++ op.pyStr) s
    let s2 := bump 1 s1
    let s3 := pprint ("Left:") s2
    let s4 := bump 1 s3
    let s5 := visitExpr left s4
    let s6 := bump (-1) s5
    let s7 := pprint ("Right:") s6
    let s8 := bump 1 s7
    let s9 := visitExpr right s8
    let s10 := bump (-1) s9
    bump (-1) s10
  | .unaryOp op expr, s =>
    let s1 := pprint ("UnaryOp: " ++ op.pyStr) s
    let s2 := bump 1 s1
    let s3 := visitExpr expr s2
    bump (-1) s3
  | .callExpression func_name arguments, s =>
    let s1 := pprint ("CallExpression: " ++ func_name.pyStr) s
    let s2 := bump 1 s1
    let s3 :=
      if arguments.isEmpty then s2
      else
        let s2a := pprint ("Arguments:") s2
        let s2b := bump 1 s2a
        let s2c := visitExprList arguments s2b
        bump (-1) s2c
    bump (-1) s3

/-- The for loop over node.arguments in visit_call_expression. -/
def visitExprList : List Expr → PV → PV
  | [], s => s
  | a :: rest, s => visitExprList rest (visitExpr a s)

end

mutual

/-- Double dispatch node.accept(visitor) for statement nodes, resolving to
the visit_var_declaration / visit_assignment / visit_if_statement /
visit_while_statement / visit_function_declaration / visit_return_statement /
visit_expression_statement methods of PrintVisitor in visitor.py. -/
def visitStmt : Stmt → PV → PV
  | .varDeclaration var_name value, s =>
    let s1 := pprint ("VarDeclaration: " ++ var_name.pyStr) s
    let s2 := bump 1 s1
    let s3 := pprint ("Value:") s2
    let s4 := bump 1 s3
    let s5 := visitExpr value s4
    bump (-2) s5
  | .assignment var_name value, s =>
    let s1 := pprint ("Assignment: " ++ var_name.pyStr) s
    let s2 := bump 1 s1
    let s3 := pprint ("Value:") s2
    let s4 := bump 1 s3
    let s5 := visitExpr value s4
    bump (-2) s5
  | .ifStatement condition then_block else_block, s =>
    let s1 := pprint ("IfStatement:") s
    let s2 := bump 1 s1
    let s3 := pprint ("Condition:") s2
    let s4 := bump 1 s3
    let s5 := visitExpr condition s4
    let s6 := bump (-1) s5
    let s7 := pprint ("Then:") s6
    let s8 := bump 1 s7
    let s9 := visitBlock then_block s8
    let s10 := bump (-1) s9
    let s11 :=
      match else_block with
      | some eb =>
        let sa := pprint ("Else:") s10
        let sb := bump 1 sa
        let sc := visitBlock eb sb
        bump (-1) sc
      | Option.none => s10
    bump (-1) s11
  | .whileStatement condition body, s =>
    let s1 := pprint ("WhileStatement:") s
    let s2 := bump 1 s1
    let s3 := pprint ("Condition:") s2
    let s4 := bump 1 s3
    let s5 := visitExpr condition s4
    let s6 := bump (-1) s5
    let s7 := pprint ("Body:") s6
    let s8 := bump 1 s7
    let s9 := visitBlock body s8
    let s10 := bump (-1) s9
    bump (-1) s10
  | .functionDeclaration func_name params body, s =>
    let s1 := pprint ("FunctionDeclaration: " ++ func_name.pyStr) s
    let s2 := bump 1 s1
    let s3 := pprint ("Parameters: " ++ String.intercalate (", ") (params.map TValue.pyStr)) s2
    let s4 := pprint ("Body:") s3
    let s5 := bump 1 s4
    let s6 := visitBlock body s5
    let s7 := bump (-1) s6
    bump (-1) s7
  | .returnStatement value, s =>
    let s1 := pprint ("ReturnStatement:") s
    let s2 := bump 1 s1
    let s3 := visitExpr value s2
    bump (-1) s3
  | .expressionStatement expression, s =>
    let s1 := pprint ("ExpressionStatement:") s
    let s2 := bump 1 s1
    let s3 := visitExpr expression s2
    bump (-1) s3

/-- PrintVisitor.visit_block of visitor.py. -/
def visitBlock : Block → PV → PV
  | .mk statements, s =>
    let s1 := pprint ("Block:") s
    let s2 := bump 1 s1
    let s3 := visitStmtList statements s2
    bump (-1) s3

/-- The for loop over node.statements in visit_block and visit_program. -/
def visitStmtList : List Stmt → PV → PV
  | [], s => s
  | st :: rest, s => visitStmtList rest (visitStmt st s)

end

/-- PrintVisitor.visit_program of visitor.py. -/
def visitProgram : Program → PV → PV
  | .mk statements, s =>
    let s1 := pprint ("Program:") s
    let s2 := bump 1 s1
    let s3 := visitStmtList statements s2
    bump (-1) s3

end Visitor

/-
  Definitions used by the theorem statements below: concrete states produced
  by the front end on small inputs, and small observation helpers.
-/

/-- The parser state produced by Parser.__init__ on the source text x. -/
def c2s0 : Parser.ParserSt :=
  { text := "x",
    tokens := [Token.mk .ID (.str ("x")) 1 1, Token.mk .EOF .none 1 1],
    current_token_index := 0, had_error := false, out := [] }

/-- The parser state after parse_block reports the missing opening brace on
c2s0: the fault is recorded, the diagnostic printed, and panic-mode
synchronization has discarded the unexpected ID token and the EOF token. -/
def c2s1 : Parser.ParserSt :=
  { text := "x",
    tokens := [Token.mk .ID (.str ("x")) 1 1, Token.mk .EOF .none 1 1],
    current_token_index := 2, had_error := true,
    out := ["\n❌ PARSER ERROR at line 1, column 1:",
            "   Expected \x27\x7b\x27 to start block", "   x", "   ^"] }

/-- The parser state produced by Parser.__init__ on the source text consisting
of one closing brace. -/
def c4s0 : Parser.ParserSt :=
  { text := "\x7d",
    tokens := [Token.mk .RBRACE (.str ("\x7d")) 1 1, Token.mk .EOF .none 1 1],
    current_token_index := 0, had_error := false, out := [] }

/-- The parser state produced by Parser.__init__ on the empty source text:
the current token is the EOF token. -/
def c10s : Parser.ParserSt :=
  { text := "",
    tokens := [Token.mk .EOF .none 1 1],
    current_token_index := 0, had_error := false, out := [] }

/-- The number of arguments of the call expression when the parse produced a
program consisting of exactly one expression statement wrapping a call. -/
def firstStmtCallArgCount : ParseResult → Option Nat
  | .ok p _ =>
    match p.statements with
    | [Stmt.expressionStatement (Expr.callExpression _ args)] => some args.length
    | _ => Option.none
  | _ => Option.none

/-- The token list produced by the lexer on the spec sample var x = 10; . -/
def c6toks : List Token :=
  [Token.mk .VAR (.str ("var")) 1 1,
   Token.mk .ID (.str ("x")) 1 5,
   Token.mk .ASSIGN (.str ("=")) 1 7,
   Token.mk .INT (.int 10) 1 9,
   Token.mk .SEMI (.str (";")) 1 11,
   Token.mk .EOF .none 1 11]

/-- The parser state produced by Parser.__init__ on the source
else with an empty block, whose current token is the else keyword. -/
def c8s : Parser.ParserSt :=
  { text := "else \x7b \x7d",
    tokens := [Token.mk .ELSE (.str ("else")) 1 1,
               Token.mk .LBRACE (.str ("\x7b")) 1 6,
               Token.mk .RBRACE (.str ("\x7d")) 1 8,
               Token.mk .EOF .none 1 8],
    current_token_index := 0, had_error := false, out := [] }

/-- The parser state produced by Parser.__init__ on the source
x = ; y = 1; whose assignment is missing its right-hand expression. -/
def c5s0 : Parser.ParserSt :=
  { text := "x = ; y = 1;",
    tokens := [Token.mk .ID (.str ("x")) 1 1,
               Token.mk .ASSIGN (.str ("=")) 1 3,
               Token.mk .SEMI (.str (";")) 1 5,
               Token.mk .ID (.str ("y")) 1 7,
               Token.mk .ASSIGN (.str ("=")) 1 9,
               Token.mk .INT (.int 1) 1 11,
               Token.mk .SEMI (.str (";")) 1 12,
               Token.mk .EOF .none 1 12],
    current_token_index := 0, had_error := false, out := [] }

/-- The parser state produced by Parser.__init__ on the source
f(a + b, c); whose current token is an identifier followed by an opening
parenthesis. -/
def c3s0 : Parser.ParserSt :=
  { text := "f(a + b, c);",
    tokens := [Token.mk .ID (.str ("f")) 1 1,
               Token.mk .LPAREN (.str ("(")) 1 2,
               Token.mk .ID (.str ("a")) 1 3,
               Token.mk .PLUS (.str ("+")) 1 5,
               Token.mk .ID (.str ("b")) 1 7,
               Token.mk .COMMA (.str (",")) 1 8,
               Token.mk .ID (.str ("c")) 1 10,
               Token.mk .RPAREN (.str (")")) 1 11,
               Token.mk .SEMI (.str (";")) 1 12,
               Token.mk .EOF .none 1 12],
    current_token_index := 0, had_error := false, out := [] }

/-- The message of the parse_block missing-brace diagnostic. -/
def blockMsg : String := "Expected \x27\x7b\x27 to start block"

/-- The message of the parse_assignment missing-expression diagnostic. -/
def assignMsg : String := "Missing expression in assignment"

/-- Transfer property of a PrintVisitor traversal step: it shifts the shared
indent counter by a fixed delta and appends lines that depend only on the
entry indent, not on previously printed output. -/
def Visitor.Tr (fn : Visitor.PV → Visitor.PV) (d : Int) : Prop :=
  ∀ (i : Int) (o : List String),
    fn ⟨i, o⟩ = ⟨i + d, o ++ (fn ⟨i, []⟩).out⟩

/-
  Lemmas about the panic-mode machinery of the parser: synchronize, error
  and eat only ever move the cursor forward, and where they stop is governed
  by the synchronizing token set.
-/

namespace Parser

theorem current_token_mark (s : ParserSt) (b : Bool) (o : List String) :
    current_token { s with had_error := b, out := o } = current_token s := rfl

theorem synchronize_go_shape : ∀ (gas : Nat) (s : ParserSt),
    ∃ j, s.current_token_index ≤ j ∧
      synchronize_go gas s = { s with current_token_index := j } := by
  intro gas
  induction gas with
  | zero => intro s; exact ⟨s.current_token_index, Nat.le_refl _, rfl⟩
  | succ g ih =>
    intro s
    unfold synchronize_go
    cases h : current_token s with
    | none => exact ⟨s.current_token_index, Nat.le_refl _, rfl⟩
    | some tok =>
      by_cases hs : tok.type ∈ sync_tokens
      · simp only [hs, if_pos]
        exact ⟨s.current_token_index, Nat.le_refl _, rfl⟩
      · simp only [hs, if_neg, not_false_iff]
        obtain ⟨j, hle, heq⟩ := ih { s with current_token_index := s.current_token_index + 1 }
        have hb : ({ s with current_token_index := s.current_token_index + 1 } :
            ParserSt).current_token_index = s.current_token_index + 1 := rfl
        rw [hb] at hle
        exact ⟨j, by omega, heq⟩

theorem synchronize_go_stop : ∀ (gas : Nat) (s : ParserSt),
    s.tokens.length - s.current_token_index ≤ gas →
    current_token (synchronize_go gas s) = Option.none ∨
      ∃ u, current_token (synchronize_go gas s) = some u ∧ u.type ∈ sync_tokens := by
  intro gas
  induction gas with
  | zero =>
    intro s hgas
    left
    unfold synchronize_go current_token
    exact List.get?_eq_none.2 (by omega)
  | succ g ih =>
    intro s hgas
    unfold synchronize_go
    cases h : current_token s with
    | none => left; exact h
    | some tok =>
      by_cases hs : tok.type ∈ sync_tokens
      · simp only [hs, if_pos]
        exact Or.inr ⟨tok, h, hs⟩
      · simp only [hs, if_neg, not_false_iff]
        have hlt : s.current_token_index < s.tokens.length := by
          by_contra hge
          rw [show current_token s = Option.none from
            List.get?_eq_none.2 (by omega)] at h
          exact Option.noConfusion h
        exact ih { s with current_token_index := s.current_token_index + 1 } (by
          have hb : ({ s with current_token_index := s.current_token_index + 1 } :
              ParserSt).tokens.length = s.tokens.length := rfl
          have hc : ({ s with current_token_index := s.current_token_index + 1 } :
              ParserSt).current_token_index = s.current_token_index + 1 := rfl
          omega)

theorem synchronize_go_strict (gas : Nat) (s : ParserSt) (t : Token)
    (hgas : gas ≠ 0) (h : current_token s = some t) (ht : t.type ∉ sync_tokens) :
    s.current_token_index < (synchronize_go gas s).current_token_index := by
  obtain ⟨g, rfl⟩ : ∃ g, gas = g + 1 := ⟨gas - 1, by omega⟩
  unfold synchronize_go
  rw [h]
  simp only [ht, if_neg, not_false_iff]
  obtain ⟨j, hle, heq⟩ :=
    synchronize_go_shape g { s with current_token_index := s.current_token_index + 1 }
  rw [heq]
  have hb : ({ s with current_token_index := s.current_token_index + 1 } :
      ParserSt).current_token_index = s.current_token_index + 1 := rfl
  rw [hb] at hle
  show s.current_token_index < j
  omega

theorem synchronize_finish_shape (s1 : ParserSt) :
    ∃ j, s1.current_token_index ≤ j ∧
      synchronize_finish s1 = { s1 with current_token_index := j } := by
  unfold synchronize_finish
  cases h : current_token s1 with
  | none => exact ⟨s1.current_token_index, Nat.le_refl _, rfl⟩
  | some tok =>
    by_cases hs : tok.type = .SEMI
    · simp only [hs, if_pos]
      exact ⟨s1.current_token_index + 1, by omega, rfl⟩
    · simp only [hs, if_neg, not_false_iff]
      exact ⟨s1.current_token_index, Nat.le_refl _, rfl⟩

theorem synchronize_shape (s : ParserSt) :
    ∃ j, s.current_token_index ≤ j ∧
      synchronize s = { s with current_token_index := j } := by
  unfold synchronize
  obtain ⟨j, hle, heq⟩ := synchronize_go_shape (s.tokens.length - s.current_token_index) s
  rw [heq]
  obtain ⟨k, hk, hkeq⟩ := synchronize_finish_shape { s with current_token_index := j }
  rw [hkeq]
  have hb : ({ s with current_token_index := j } : ParserSt).current_token_index = j := rfl
  rw [hb] at hk
  exact ⟨k, by omega, rfl⟩

theorem synchronize_fix (s : ParserSt) (t : Token)
    (h : current_token s = some t) (hs : t.type ∈ sync_tokens) (hn : t.type ≠ .SEMI) :
    synchronize s = s := by
  have hlt : s.current_token_index < s.tokens.length := by
    by_contra hge
    rw [show current_token s = Option.none from List.get?_eq_none.2 (by omega)] at h
    exact Option.noConfusion h
  obtain ⟨g, hg⟩ : ∃ g, s.tokens.length - s.current_token_index = g + 1 :=
    ⟨s.tokens.length - s.current_token_index - 1, by omega⟩
  unfold synchronize
  rw [hg]
  unfold synchronize_go
  rw [h]
  simp only [hs, if_pos]
  unfold synchronize_finish
  rw [h]
  simp only [hn, if_neg, not_false_iff]

theorem synchronize_semi (s : ParserSt) (t : Token)
    (h : current_token s = some t) (hs : t.type = .SEMI) :
    synchronize s = { s with current_token_index := s.current_token_index + 1 } := by
  have hlt : s.current_token_index < s.tokens.length := by
    by_contra hge
    rw [show current_token s = Option.none from List.get?_eq_none.2 (by omega)] at h
    exact Option.noConfusion h
  obtain ⟨g, hg⟩ : ∃ g, s.tokens.length - s.current_token_index = g + 1 :=
    ⟨s.tokens.length - s.current_token_index - 1, by omega⟩
  unfold synchronize
  rw [hg]
  unfold synchronize_go
  rw [h]
  have hmem : t.type ∈ sync_tokens := by rw [hs]; decide
  simp only [hmem, if_pos]
  unfold synchronize_finish
  rw [h]
  simp only [hs, if_pos]

theorem synchronize_strict (s : ParserSt) (t : Token)
    (h : current_token s = some t) (ht : t.type ∉ sync_tokens) :
    s.current_token_index < (synchronize s).current_token_index := by
  have hlt : s.current_token_index < s.tokens.length := by
    by_contra hge
    rw [show current_token s = Option.none from List.get?_eq_none.2 (by omega)] at h
    exact Option.noConfusion h
  unfold synchronize
  have hst := synchronize_go_strict (s.tokens.length - s.current_token_index) s t
    (by omega) h ht
  obtain ⟨k, hk, hkeq⟩ :=
    synchronize_finish_shape (synchronize_go (s.tokens.length - s.current_token_index) s)
  rw [hkeq]
  have hb : ({ synchronize_go (s.tokens.length - s.current_token_index) s with
      current_token_index := k } : ParserSt).current_token_index = k := rfl
  rw [hb]
  omega

theorem synchronize_stop (s : ParserSt) :
    current_token (synchronize s) = Option.none ∨
      (∃ u, current_token (synchronize s) = some u ∧
        u.type ∈ sync_tokens ∧ u.type ≠ .SEMI) ∨
      (∃ u, s.tokens.get? ((synchronize s).current_token_index - 1) = some u ∧
        u.type = .SEMI) := by
  obtain ⟨j, hle, heq⟩ := synchronize_go_shape (s.tokens.length - s.current_token_index) s
  rcases synchronize_go_stop (s.tokens.length - s.current_token_index) s (Nat.le_refl _) with
    hnone | ⟨u, hu, humem⟩
  · left
    unfold synchronize synchronize_finish
    rw [hnone]
    exact hnone
  · by_cases hsemi : u.type = .SEMI
    · right; right
      unfold synchronize synchronize_finish
      rw [hu]
      simp only [hsemi, if_pos]
      refine ⟨u, ?_, hsemi⟩
      rw [heq] at hu ⊢
      show s.tokens.get? j = some u
      exact hu
    · right; left
      refine ⟨u, ?_, humem, hsemi⟩
      unfold synchronize synchronize_finish
      rw [hu]
      simp only [hsemi, if_neg, not_false_iff]
      exact hu

theorem error_shape (m : String) (s : ParserSt) :
    ∃ (j : Nat) (o : List String), s.current_token_index ≤ j ∧
      error m s = { s with had_error := true, current_token_index := j, out := o } := by
  unfold error
  cases h : current_token s with
  | some tok =>
    by_cases he : tok.type = .EOF
    · simp only [he, if_pos]
      exact ⟨s.current_token_index, s.out, Nat.le_refl _, rfl⟩
    · simp only [he, if_neg, not_false_iff]
      obtain ⟨j, hle, heq⟩ := synchronize_shape
        { s with had_error := true, out := errorReport m s tok.line tok.column }
      exact ⟨j, errorReport m s tok.line tok.column, hle, heq⟩
  | none =>
    obtain ⟨j, hle, heq⟩ := synchronize_shape
      { s with had_error := true, out := errorReport m s 1 1 }
    exact ⟨j, errorReport m s 1 1, hle, heq⟩

theorem error_had_error (m : String) (s : ParserSt) : (error m s).had_error = true := by
  obtain ⟨j, o, _, heq⟩ := error_shape m s
  rw [heq]

theorem error_mono (m : String) (s : ParserSt) :
    s.current_token_index ≤ (error m s).current_token_index := by
  obtain ⟨j, o, hle, heq⟩ := error_shape m s
  rw [heq]
  exact hle

theorem error_tokens (m : String) (s : ParserSt) : (error m s).tokens = s.tokens := by
  obtain ⟨j, o, _, heq⟩ := error_shape m s
  rw [heq]

theorem error_eof_eq (m : String) (s : ParserSt) (t : Token)
    (h : current_token s = some t) (ht : t.type = .EOF) :
    error m s = { s with had_error := true } := by
  unfold error
  rw [h]
  simp only [ht, if_pos]

theorem sync_mem_ne_eof (t : Token) (hs : t.type ∈ sync_tokens) : t.type ≠ .EOF := by
  intro hEOF
  rw [hEOF] at hs
  simp [sync_tokens] at hs

theorem error_fix_eq (m : String) (s : ParserSt) (t : Token)
    (h : current_token s = some t) (hs : t.type ∈ sync_tokens) (hn : t.type ≠ .SEMI) :
    error m s = { s with had_error := true, out := errorReport m s t.line t.column } := by
  unfold error
  rw [h]
  simp only [sync_mem_ne_eof t hs, if_neg, not_false_iff]
  exact synchronize_fix _ t h hs hn

theorem error_semi_eq (m : String) (s : ParserSt) (t : Token)
    (h : current_token s = some t) (hsem : t.type = .SEMI) :
    error m s =
      { s with
        had_error := true
        out := errorReport m s t.line t.column
        current_token_index := s.current_token_index + 1 } := by
  unfold error
  rw [h]
  have hne : t.type ≠ .EOF := by rw [hsem]; decide
  simp only [hne, if_neg, not_false_iff]
  exact synchronize_semi _ t h hsem

theorem error_strict (m : String) (s : ParserSt) (t : Token)
    (h : current_token s = some t) (hne : t.type ≠ .EOF) (hs : t.type ∉ sync_tokens) :
    s.current_token_index < (error m s).current_token_index := by
  unfold error
  rw [h]
  simp only [hne, if_neg, not_false_iff]
  exact synchronize_strict
    { s with had_error := true, out := errorReport m s t.line t.column } t h hs

theorem error_stop (m : String) (s : ParserSt) (t : Token)
    (h : current_token s = some t) (hne : t.type ≠ .EOF) :
    current_token (error m s) = Option.none ∨
      (∃ u, current_token (error m s) = some u ∧
        u.type ∈ sync_tokens ∧ u.type ≠ .SEMI) ∨
      (∃ u, s.tokens.get? ((error m s).current_token_index - 1) = some u ∧
        u.type = .SEMI) := by
  unfold error
  rw [h]
  simp only [hne, if_neg, not_false_iff]
  exact synchronize_stop
    { s with had_error := true, out := errorReport m s t.line t.column }

theorem eat_match (tt : TokenType) (s : ParserSt) (t : Token)
    (h : current_token s = some t) (ht : t.type = tt) :
    eat tt s = { s with current_token_index := s.current_token_index + 1 } := by
  unfold eat
  rw [h]
  simp only [ht, if_pos]

theorem eat_mismatch (tt : TokenType) (s : ParserSt) (t : Token)
    (h : current_token s = some t) (ht : t.type ≠ tt) :
    eat tt s = error ("Expected " ++ tt.toStr ++ ", found " ++ t.type.toStr) s := by
  unfold eat
  rw [h]
  simp only [ht, if_neg, not_false_iff]

end Parser

/-
  Lemmas about the lexer: every token-producing step strictly advances the
  scan position and preserves the text, so the gas supplied by the wrappers
  is never exhausted — tokenize terminates on every input.
-/

namespace Lexer

theorem advance_pos (s : LexerSt) : (advance s).pos = s.pos + 1 := by
  unfold advance
  dsimp only
  split <;> rfl

theorem advance_text (s : LexerSt) : (advance s).text = s.text := by
  unfold advance
  dsimp only
  split <;> rfl

theorem current_some_lt (s : LexerSt) (c : Char)
    (h : current_char s = some c) : s.pos < s.text.length := by
  by_contra hge
  rw [show current_char s = Option.none from List.get?_eq_none.2 (by omega)] at h
  exact Option.noConfusion h

theorem skip_whitespace_go_pos_le : ∀ (gas : Nat) (s : LexerSt),
    s.pos ≤ (skip_whitespace_go gas s).pos := by
  intro gas
  induction gas with
  | zero => intro s; exact Nat.le_refl _
  | succ g ih =>
    intro s
    unfold skip_whitespace_go
    cases h : current_char s with
    | none => exact Nat.le_refl _
    | some c =>
      by_cases hw : isWs c = true
      · simp only [hw, if_pos]
        have := ih (advance s)
        rw [advance_pos] at this
        omega
      · simp only [hw, if_neg, not_false_iff]
        exact Nat.le_refl _

theorem skip_whitespace_go_text : ∀ (gas : Nat) (s : LexerSt),
    (skip_whitespace_go gas s).text = s.text := by
  intro gas
  induction gas with
  | zero => intro s; rfl
  | succ g ih =>
    intro s
    unfold skip_whitespace_go
    cases h : current_char s with
    | none => rfl
    | some c =>
      by_cases hw : isWs c = true
      · simp only [hw, if_pos]
        rw [ih (advance s), advance_text]
      · simp only [hw, if_neg, not_false_iff]
        rfl

theorem skip_whitespace_strict (s : LexerSt) (c : Char)
    (h : current_char s = some c) (hw : isWs c = true) :
    s.pos < (skip_whitespace s).pos := by
  have hlt := current_some_lt s c h
  obtain ⟨g, hg⟩ : ∃ g, s.text.length - s.pos = g + 1 :=
    ⟨s.text.length - s.pos - 1, by omega⟩
  unfold skip_whitespace
  rw [hg]
  unfold skip_whitespace_go
  rw [h]
  simp only [hw, if_pos]
  have := skip_whitespace_go_pos_le g (advance s)
  rw [advance_pos] at this
  omega

theorem skip_whitespace_text (s : LexerSt) :
    (skip_whitespace s).text = s.text :=
  skip_whitespace_go_text _ s

theorem skip_comment_go_pos_le : ∀ (gas : Nat) (s : LexerSt),
    s.pos ≤ (skip_comment_go gas s).pos := by
  intro gas
  induction gas with
  | zero => intro s; exact Nat.le_refl _
  | succ g ih =>
    intro s
    unfold skip_comment_go
    cases h : current_char s with
    | none => exact Nat.le_refl _
    | some c =>
      dsimp only
      by_cases hw : c ≠ '\n'
      · rw [if_pos hw]
        have := ih (advance s)
        rw [advance_pos] at this
        omega
      · rw [if_neg hw]

theorem skip_comment_go_text : ∀ (gas : Nat) (s : LexerSt),
    (skip_comment_go gas s).text = s.text := by
  intro gas
  induction gas with
  | zero => intro s; rfl
  | succ g ih =>
    intro s
    unfold skip_comment_go
    cases h : current_char s with
    | none => rfl
    | some c =>
      dsimp only
      by_cases hw : c ≠ '\n'
      · rw [if_pos hw]
        rw [ih (advance s), advance_text]
      · rw [if_neg hw]

theorem skip_comment_strict (s : LexerSt) : s.pos < (skip_comment s).pos := by
  unfold skip_comment
  rw [advance_pos]
  have := skip_comment_go_pos_le (s.text.length - s.pos) s
  omega

theorem skip_comment_text (s : LexerSt) : (skip_comment s).text = s.text := by
  unfold skip_comment
  rw [advance_text, skip_comment_go_text]

theorem digits_go_pos_le : ∀ (gas : Nat) (s : LexerSt) (acc : String),
    s.pos ≤ (digits_go gas s acc).2.pos := by
  intro gas
  induction gas with
  | zero => intro s acc; exact Nat.le_refl _
  | succ g ih =>
    intro s acc
    unfold digits_go
    cases h : current_char s with
    | none => exact Nat.le_refl _
    | some c =>
      by_cases hd : c.isDigit = true
      · simp only [hd, if_pos]
        have := ih (advance s) (acc.push c)
        rw [advance_pos] at this
        omega
      · simp only [hd, if_neg, not_false_iff]
        exact Nat.le_refl _

theorem digits_go_text : ∀ (gas : Nat) (s : LexerSt) (acc : String),
    (digits_go gas s acc).2.text = s.text := by
  intro gas
  induction gas with
  | zero => intro s acc; rfl
  | succ g ih =>
    intro s acc
    unfold digits_go
    cases h : current_char s with
    | none => rfl
    | some c =>
      by_cases hd : c.isDigit = true
      · simp only [hd, if_pos]
        rw [ih (advance s) (acc.push c), advance_text]
      · simp only [hd, if_neg, not_false_iff]
        rfl

theorem number_strict (s : LexerSt) (c : Char)
    (h : current_char s = some c) (hd : c.isDigit = true) :
    s.pos < (number s).2.pos ∧ (number s).2.text = s.text := by
  have hlt := current_some_lt s c h
  have hstrict : s.pos < (digits_go (s.text.length - s.pos) s ("")).2.pos := by
    obtain ⟨g, hg⟩ : ∃ g, s.text.length - s.pos = g + 1 :=
      ⟨s.text.length - s.pos - 1, by omega⟩
    rw [hg]
    unfold digits_go
    rw [h]
    simp only [hd, if_pos]
    have := digits_go_pos_le g (advance s) (String.push ("") c)
    rw [advance_pos] at this
    omega
  have htext : (digits_go (s.text.length - s.pos) s ("")).2.text = s.text :=
    digits_go_text _ s ("")
  unfold number
  dsimp only
  cases hc : current_char (digits_go (s.text.length - s.pos) s ("")).2 with
  | none => exact ⟨hstrict, htext⟩
  | some c2 =>
    dsimp only
    by_cases hdot : c2 = '.'
    · rw [if_pos hdot]
      constructor
      · have h1 := digits_go_pos_le
          ((advance (digits_go (s.text.length - s.pos) s ("")).2).text.length -
            (advance (digits_go (s.text.length - s.pos) s ("")).2).pos)
          (advance (digits_go (s.text.length - s.pos) s ("")).2)
          (String.push (digits_go (s.text.length - s.pos) s ("")).1 '.')
        have h2 := advance_pos (digits_go (s.text.length - s.pos) s ("")).2
        exact lt_of_lt_of_le (by omega) h1
      · have h3 : (digits_go
            ((advance (digits_go (s.text.length - s.pos) s ("")).2).text.length -
              (advance (digits_go (s.text.length - s.pos) s ("")).2).pos)
            (advance (digits_go (s.text.length - s.pos) s ("")).2)
            (String.push (digits_go (s.text.length - s.pos) s ("")).1 '.')).2.text =
            s.text := by
          rw [digits_go_text, advance_text, htext]
        exact h3
    · rw [if_neg hdot]
      exact ⟨hstrict, htext⟩

theorem string_go_pos_le : ∀ (gas : Nat) (s : LexerSt) (acc : String),
    s.pos ≤ (string_go gas s acc).2.pos := by
  intro gas
  induction gas with
  | zero => intro s acc; exact Nat.le_refl _
  | succ g ih =>
    intro s acc
    unfold string_go
    cases h : current_char s with
    | none => exact Nat.le_refl _
    | some c =>
      dsimp only
      by_cases hd : c ≠ '"'
      · rw [if_pos hd]
        have := ih (advance s) (acc.push c)
        rw [advance_pos] at this
        omega
      · rw [if_neg hd]

theorem string_go_text : ∀ (gas : Nat) (s : LexerSt) (acc : String),
    (string_go gas s acc).2.text = s.text := by
  intro gas
  induction gas with
  | zero => intro s acc; rfl
  | succ g ih =>
    intro s acc
    unfold string_go
    cases h : current_char s with
    | none => rfl
    | some c =>
      dsimp only
      by_cases hd : c ≠ '"'
      · rw [if_pos hd]
        rw [ih (advance s) (acc.push c), advance_text]
      · rw [if_neg hd]

theorem string_ok (s : LexerSt) (t : Token) (s1 : LexerSt)
    (h : string s = .ok (t, s1)) : s.pos < s1.pos ∧ s1.text = s.text := by
  unfold string at h
  dsimp only at h
  cases hc : current_char
      (string_go ((advance s).text.length - (advance s).pos) (advance s) ("")).2 with
  | none => rw [hc] at h; exact Except.noConfusion h
  | some c2 =>
    rw [hc] at h
    have := Except.ok.inj h
    have hs1 : s1 =
        advance (string_go ((advance s).text.length - (advance s).pos) (advance s) ("")).2 := by
      have := congrArg Prod.snd this
      exact this.symm
    subst hs1
    constructor
    · rw [advance_pos]
      have h1 := string_go_pos_le ((advance s).text.length - (advance s).pos) (advance s) ("")
      have h2 := advance_pos s
      omega
    · rw [advance_text, string_go_text, advance_text]

theorem string_not_fuel (s : LexerSt) : string s ≠ .error .fuel := by
  unfold string
  dsimp only
  cases hc : current_char
      (string_go ((advance s).text.length - (advance s).pos) (advance s) ("")).2 with
  | none => intro h; exact LexErr.noConfusion (Except.error.inj h)
  | some c2 => intro h; exact Except.noConfusion h

theorem ident_go_pos_le : ∀ (gas : Nat) (s : LexerSt) (acc : String),
    s.pos ≤ (ident_go gas s acc).2.pos := by
  intro gas
  induction gas with
  | zero => intro s acc; exact Nat.le_refl _
  | succ g ih =>
    intro s acc
    unfold ident_go
    cases h : current_char s with
    | none => exact Nat.le_refl _
    | some c =>
      by_cases hd : (c.isAlphanum || c = '_') = true
      · simp only [hd, if_pos]
        have := ih (advance s) (acc.push c)
        rw [advance_pos] at this
        omega
      · simp only [hd, if_neg, not_false_iff]
        exact Nat.le_refl _

theorem ident_go_text : ∀ (gas : Nat) (s : LexerSt) (acc : String),
    (ident_go gas s acc).2.text = s.text := by
  intro gas
  induction gas with
  | zero => intro s acc; rfl
  | succ g ih =>
    intro s acc
    unfold ident_go
    cases h : current_char s with
    | none => rfl
    | some c =>
      by_cases hd : (c.isAlphanum || c = '_') = true
      · simp only [hd, if_pos]
        rw [ih (advance s) (acc.push c), advance_text]
      · simp only [hd, if_neg, not_false_iff]
        rfl

theorem identifier_strict (s : LexerSt) (c : Char)
    (h : current_char s = some c) (ha : (c.isAlpha || c = '_') = true) :
    s.pos < (identifier s).2.pos ∧ (identifier s).2.text = s.text := by
  have hlt := current_some_lt s c h
  have hcond : (c.isAlphanum || c = '_') = true := by
    have ha2 : c.isAlpha = true ∨ c = '_' := by simpa using ha
    rcases ha2 with h1 | h1
    · have h2 : c.isAlphanum = true := by simp [Char.isAlphanum, h1]
      simp [h2]
    · simp [h1]
  constructor
  · obtain ⟨g, hg⟩ : ∃ g, s.text.length - s.pos = g + 1 :=
      ⟨s.text.length - s.pos - 1, by omega⟩
    unfold identifier
    dsimp only
    rw [hg]
    unfold ident_go
    rw [h]
    simp only [hcond, if_pos]
    have := ident_go_pos_le g (advance s) (String.push ("") c)
    rw [advance_pos] at this
    omega
  · unfold identifier
    dsimp only
    rw [ident_go_text]

theorem gnt_go_progress : ∀ (gas : Nat) (s : LexerSt) (t : Token) (s1 : LexerSt),
    gnt_go gas s = .ok (t, s1) → t.type ≠ .EOF →
    s.pos < s1.pos ∧ s.pos < s.text.length ∧ s1.text = s.text := by
  intro gas
  induction gas with
  | zero => intro s t s1 h ht; exact Except.noConfusion h
  | succ g ih =>
    intro s t s1 h ht
    unfold gnt_go at h
    cases hc : current_char s with
    | none =>
      rw [hc] at h
      dsimp only at h
      have hinj := Except.ok.inj h
      have htype := congrArg Token.type (congrArg Prod.fst hinj)
      exact absurd htype.symm ht
    | some c =>
      rw [hc] at h
      dsimp only at h
      have hcl := current_some_lt s c hc
      by_cases hws : isWs c = true
      · rw [if_pos hws] at h
        obtain ⟨hp, hl, htx⟩ := ih (skip_whitespace s) t s1 h ht
        have hstrict := skip_whitespace_strict s c hc hws
        have htxs := skip_whitespace_text s
        exact ⟨by omega, hcl, by rw [htx, htxs]⟩
      · rw [if_neg hws] at h
        by_cases hcm : c = '#'
        · rw [if_pos hcm] at h
          obtain ⟨hp, hl, htx⟩ := ih (skip_comment s) t s1 h ht
          have hstrict := skip_comment_strict s
          have htxs := skip_comment_text s
          exact ⟨by omega, hcl, by rw [htx, htxs]⟩
        · rw [if_neg hcm] at h
          by_cases hdig : c.isDigit = true
          · rw [if_pos hdig] at h
            have hinj := Except.ok.inj h
            have hs1 : s1 = (number s).2 := (congrArg Prod.snd hinj).symm
            obtain ⟨hp, htx⟩ := number_strict s c hc hdig
            subst hs1
            exact ⟨hp, hcl, htx⟩
          · rw [if_neg hdig] at h
            by_cases hq : c = '"'
            · rw [if_pos hq] at h
              obtain ⟨hp, htx⟩ := string_ok s t s1 h
              exact ⟨hp, hcl, htx⟩
            · rw [if_neg hq] at h
              by_cases hal : (c.isAlpha || c = '_') = true
              · rw [if_pos hal] at h
                have hinj := Except.ok.inj h
                have hs1 : s1 = (identifier s).2 := (congrArg Prod.snd hinj).symm
                obtain ⟨hp, htx⟩ := identifier_strict s c hc hal
                subst hs1
                exact ⟨hp, hcl, htx⟩
              · rw [if_neg hal] at h
                by_cases he : c = '='
                · rw [if_pos he] at h
                  by_cases he2 : current_char (advance s) = some '='
                  · rw [if_pos he2] at h
                    have hinj := Except.ok.inj h
                    have hs1 : s1 = advance (advance s) := (congrArg Prod.snd hinj).symm
                    subst hs1
                    refine ⟨?_, hcl, ?_⟩
                    · rw [advance_pos, advance_pos]; omega
                    · rw [advance_text, advance_text]
                  · rw [if_neg he2] at h
                    have hinj := Except.ok.inj h
                    have hs1 : s1 = advance s := (congrArg Prod.snd hinj).symm
                    subst hs1
                    exact ⟨by rw [advance_pos]; omega, hcl, advance_text s⟩
                · rw [if_neg he] at h
                  by_cases hx : c = '!'
                  · rw [if_pos hx] at h
                    by_cases he2 : current_char (advance s) = some '='
                    · rw [if_pos he2] at h
                      have hinj := Except.ok.inj h
                      have hs1 : s1 = advance (advance s) := (congrArg Prod.snd hinj).symm
                      subst hs1
                      refine ⟨?_, hcl, ?_⟩
                      · rw [advance_pos, advance_pos]; omega
                      · rw [advance_text, advance_text]
                    · rw [if_neg he2] at h
                      exact Except.noConfusion h
                  · rw [if_neg hx] at h
                    by_cases hlt2 : c = '<'
                    · rw [if_pos hlt2] at h
                      by_cases he2 : current_char (advance s) = some '='
                      · rw [if_pos he2] at h
                        have hinj := Except.ok.inj h
                        have hs1 : s1 = advance (advance s) := (congrArg Prod.snd hinj).symm
                        subst hs1
                        refine ⟨?_, hcl, ?_⟩
                        · rw [advance_pos, advance_pos]; omega
                        · rw [advance_text, advance_text]
                      · rw [if_neg he2] at h
                        have hinj := Except.ok.inj h
                        have hs1 : s1 = advance s := (congrArg Prod.snd hinj).symm
                        subst hs1
                        exact ⟨by rw [advance_pos]; omega, hcl, advance_text s⟩
                    · rw [if_neg hlt2] at h
                      by_cases hgt2 : c = '>'
                      · rw [if_pos hgt2] at h
                        by_cases he2 : current_char (advance s) = some '='
                        · rw [if_pos he2] at h
                          have hinj := Except.ok.inj h
                          have hs1 : s1 = advance (advance s) := (congrArg Prod.snd hinj).symm
                          subst hs1
                          refine ⟨?_, hcl, ?_⟩
                          · rw [advance_pos, advance_pos]; omega
                          · rw [advance_text, advance_text]
                        · rw [if_neg he2] at h
                          have hinj := Except.ok.inj h
                          have hs1 : s1 = advance s := (congrArg Prod.snd hinj).symm
                          subst hs1
                          exact ⟨by rw [advance_pos]; omega, hcl, advance_text s⟩
                      · rw [if_neg hgt2] at h
                        by_cases ha2 : c = '&'
                        · rw [if_pos ha2] at h
                          by_cases he2 : current_char (advance s) = some '&'
                          · rw [if_pos he2] at h
                            have hinj := Except.ok.inj h
                            have hs1 : s1 = advance (advance s) :=
                              (congrArg Prod.snd hinj).symm
                            subst hs1
                            refine ⟨?_, hcl, ?_⟩
                            · rw [advance_pos, advance_pos]; omega
                            · rw [advance_text, advance_text]
                          · rw [if_neg he2] at h
                            exact Except.noConfusion h
                        · rw [if_neg ha2] at h
                          by_cases ho2 : c = '|'
                          · rw [if_pos ho2] at h
                            by_cases he2 : current_char (advance s) = some '|'
                            · rw [if_pos he2] at h
                              have hinj := Except.ok.inj h
                              have hs1 : s1 = advance (advance s) :=
                                (congrArg Prod.snd hinj).symm
                              subst hs1
                              refine ⟨?_, hcl, ?_⟩
                              · rw [advance_pos, advance_pos]; omega
                              · rw [advance_text, advance_text]
                            · rw [if_neg he2] at h
                              exact Except.noConfusion h
                          · rw [if_neg ho2] at h
                            cases hst : singleTok c with
                            | some tt =>
                              rw [hst] at h
                              dsimp only at h
                              have hinj := Except.ok.inj h
                              have hs1 : s1 = advance s := (congrArg Prod.snd hinj).symm
                              subst hs1
                              exact ⟨by rw [advance_pos]; omega, hcl, advance_text s⟩
                            | none =>
                              rw [hst] at h
                              exact Except.noConfusion h

theorem get_next_token_progress (s : LexerSt) (t : Token) (s1 : LexerSt)
    (h : get_next_token s = .ok (t, s1)) (ht : t.type ≠ .EOF) :
    s.pos < s1.pos ∧ s.pos < s.text.length ∧ s1.text = s.text :=
  gnt_go_progress _ s t s1 h ht

theorem gnt_go_nofuel : ∀ (gas : Nat) (s : LexerSt),
    s.text.length - s.pos + 1 ≤ gas → gnt_go gas s ≠ .error .fuel := by
  intro gas
  induction gas with
  | zero => intro s hgas; omega
  | succ g ih =>
    intro s hgas
    unfold gnt_go
    cases hc : current_char s with
    | none => intro h; exact Except.noConfusion h
    | some c =>
      dsimp only
      have hcl := current_some_lt s c hc
      by_cases hws : isWs c = true
      · rw [if_pos hws]
        have hstrict := skip_whitespace_strict s c hc hws
        have htxs := skip_whitespace_text s
        exact ih (skip_whitespace s) (by rw [htxs]; omega)
      · rw [if_neg hws]
        by_cases hcm : c = '#'
        · rw [if_pos hcm]
          have hstrict := skip_comment_strict s
          have htxs := skip_comment_text s
          exact ih (skip_comment s) (by rw [htxs]; omega)
        · rw [if_neg hcm]
          by_cases hdig : c.isDigit = true
          · rw [if_pos hdig]; intro h; exact Except.noConfusion h
          · rw [if_neg hdig]
            by_cases hq : c = '"'
            · rw [if_pos hq]; exact string_not_fuel s
            · rw [if_neg hq]
              by_cases hal : (c.isAlpha || c = '_') = true
              · rw [if_pos hal]; intro h; exact Except.noConfusion h
              · rw [if_neg hal]
                by_cases he : c = '='
                · rw [if_pos he]
                  by_cases he2 : current_char (advance s) = some '='
                  · rw [if_pos he2]; intro h; exact Except.noConfusion h
                  · rw [if_neg he2]; intro h; exact Except.noConfusion h
                · rw [if_neg he]
                  by_cases hx : c = '!'
                  · rw [if_pos hx]
                    by_cases he2 : current_char (advance s) = some '='
                    · rw [if_pos he2]; intro h; exact Except.noConfusion h
                    · rw [if_neg he2]
                      intro h
                      exact LexErr.noConfusion (Except.error.inj h)
                  · rw [if_neg hx]
                    by_cases hlt2 : c = '<'
                    · rw [if_pos hlt2]
                      by_cases he2 : current_char (advance s) = some '='
                      · rw [if_pos he2]; intro h; exact Except.noConfusion h
                      · rw [if_neg he2]; intro h; exact Except.noConfusion h
                    · rw [if_neg hlt2]
                      by_cases hgt2 : c = '>'
                      · rw [if_pos hgt2]
                        by_cases he2 : current_char (advance s) = some '='
                        · rw [if_pos he2]; intro h; exact Except.noConfusion h
                        · rw [if_neg he2]; intro h; exact Except.noConfusion h
                      · rw [if_neg hgt2]
                        by_cases ha2 : c = '&'
                        · rw [if_pos ha2]
                          by_cases he2 : current_char (advance s) = some '&'
                          · rw [if_pos he2]; intro h; exact Except.noConfusion h
                          · rw [if_neg he2]
                            intro h
                            exact LexErr.noConfusion (Except.error.inj h)
                        · rw [if_neg ha2]
                          by_cases ho2 : c = '|'
                          · rw [if_pos ho2]
                            by_cases he2 : current_char (advance s) = some '|'
                            · rw [if_pos he2]; intro h; exact Except.noConfusion h
                            · rw [if_neg he2]
                              intro h
                              exact LexErr.noConfusion (Except.error.inj h)
                          · rw [if_neg ho2]
                            cases hst : singleTok c with
                            | some tt =>
                              dsimp only
                              intro h
                              exact Except.noConfusion h
                            | none =>
                              dsimp only
                              intro h
                              exact LexErr.noConfusion (Except.error.inj h)

theorem get_next_token_nofuel (s : LexerSt) : get_next_token s ≠ .error .fuel :=
  gnt_go_nofuel _ s (Nat.le_refl _)

theorem tokenize_go_nofuel : ∀ (gas : Nat) (s : LexerSt) (acc : List Token),
    s.text.length - s.pos + 1 ≤ gas → tokenize_go gas s acc ≠ .error .fuel := by
  intro gas
  induction gas with
  | zero => intro s acc hgas; omega
  | succ g ih =>
    intro s acc hgas
    unfold tokenize_go
    cases hg : get_next_token s with
    | error e =>
      dsimp only
      intro h
      have he := Except.error.inj h
      rw [he] at hg
      exact get_next_token_nofuel s hg
    | ok r =>
      obtain ⟨t, s1⟩ := r
      dsimp only
      by_cases ht : t.type = .EOF
      · rw [if_pos ht]
        intro h
        exact Except.noConfusion h
      · rw [if_neg ht]
        obtain ⟨hp, hl, htx⟩ := get_next_token_progress s t s1 hg ht
        exact ih s1 (acc ++ [t]) (by rw [htx]; omega)

theorem tokenize_go_struct : ∀ (gas : Nat) (s : LexerSt) (acc toks : List Token),
    tokenize_go gas s acc = .ok toks →
    (∀ u ∈ acc, u.type ≠ .EOF) →
    ∃ ts tl, toks = ts ++ [tl] ∧ tl.type = .EOF ∧ ∀ u ∈ ts, u.type ≠ .EOF := by
  intro gas
  induction gas with
  | zero => intro s acc toks h hacc; exact Except.noConfusion h
  | succ g ih =>
    intro s acc toks h hacc
    unfold tokenize_go at h
    cases hg : get_next_token s with
    | error e => rw [hg] at h; exact Except.noConfusion h
    | ok r =>
      obtain ⟨t, s1⟩ := r
      rw [hg] at h
      dsimp only at h
      by_cases ht : t.type = .EOF
      · rw [if_pos ht] at h
        have htoks := (Except.ok.inj h).symm
        exact ⟨acc, t, htoks, ht, hacc⟩
      · rw [if_neg ht] at h
        refine ih s1 (acc ++ [t]) toks h ?_
        intro u hu
        rcases List.mem_append.1 hu with hu1 | hu2
        · exact hacc u hu1
        · rw [List.mem_singleton.1 hu2]
          exact ht

end Lexer

/-
  Lemmas about the print visitor: every traversal step shifts the indent
  counter by a fixed delta and appends output that depends only on the entry
  indent; a full node traversal has delta zero.
-/

namespace Visitor

theorem tr_pprint (t : String) : Tr (pprint t) 0 := by
  intro i o
  simp [pprint]

theorem tr_bump (d : Int) : Tr (bump d) d := by
  intro i o
  simp [bump]

theorem tr_cast {fn : PV → PV} {d d2 : Int} (h : Tr fn d) (he : d = d2) : Tr fn d2 :=
  he ▸ h

theorem tr_comp {fn g : PV → PV} {d1 d2 : Int} (hf : Tr fn d1) (hg : Tr g d2) :
    Tr (fun s => g (fn s)) (d1 + d2) := by
  intro i o
  dsimp only
  rw [hf i o, hg (i + d1) (o ++ (fn ⟨i, []⟩).out), hf i [],
    show ([] : List String) ++ (fn ⟨i, []⟩).out = (fn ⟨i, []⟩).out from rfl,
    hg (i + d1) ((fn ⟨i, []⟩).out)]
  simp [Int.add_assoc, List.append_assoc]

theorem tr_id : Tr (fun s => s) 0 := by
  intro i o
  simp

mutual

theorem visitExpr_tr : ∀ (e : Expr), Tr (visitExpr e) 0
  | .literal v tn => by
    have h : visitExpr (.literal v tn) = pprint (tn ++ "Literal: " ++ v.pyStr) := by
      funext s; simp only [visitExpr]
    rw [h]
    exact tr_pprint _
  | .identifier n => by
    have h : visitExpr (.identifier n) = pprint ("Identifier: " ++ n.pyStr) := by
      funext s; simp only [visitExpr]
    rw [h]
    exact tr_pprint _
  | .binaryOp l op r => by
    have hl := visitExpr_tr l
    have hr := visitExpr_tr r
    have h : visitExpr (.binaryOp l op r) = fun s =>
        bump (-1) (bump (-1) (visitExpr r (bump 1 (pprint ("Right:")
          (bump (-1) (visitExpr l (bump 1 (pprint ("Left:")
            (bump 1 (pprint ("BinaryOp: " ++ op.pyStr) s)))))))))) := by
      funext s; simp only [visitExpr]
    rw [h]
    exact tr_cast
      (tr_comp (tr_comp (tr_comp (tr_comp (tr_comp (tr_comp (tr_comp (tr_comp
        (tr_comp (tr_comp (tr_pprint _) (tr_bump 1)) (tr_pprint _)) (tr_bump 1))
        hl) (tr_bump (-1))) (tr_pprint _)) (tr_bump 1)) hr) (tr_bump (-1)))
        (tr_bump (-1)))
      (by decide)
  | .unaryOp op e => by
    have he := visitExpr_tr e
    have h : visitExpr (.unaryOp op e) = fun s =>
        bump (-1) (visitExpr e (bump 1 (pprint ("UnaryOp: " ++ op.pyStr) s))) := by
      funext s; simp only [visitExpr]
    rw [h]
    exact tr_cast
      (tr_comp (tr_comp (tr_comp (tr_pprint _) (tr_bump 1)) he) (tr_bump (-1)))
      (by decide)
  | .callExpression n arguments => by
    cases arguments with
    | nil =>
      have h : visitExpr (.callExpression n []) = fun s =>
          bump (-1) (bump 1 (pprint ("CallExpression: " ++ n.pyStr) s)) := by
        funext s; simp only [visitExpr, List.isEmpty_nil, reduceIte]
      rw [h]
      exact tr_cast
        (tr_comp (tr_comp (tr_pprint _) (tr_bump 1)) (tr_bump (-1)))
        (by decide)
    | cons a rest =>
      have hargs := visitExprList_tr (a :: rest)
      have h : visitExpr (.callExpression n (a :: rest)) = fun s =>
          bump (-1) (bump (-1) (visitExprList (a :: rest) (bump 1 (pprint ("Arguments:")
            (bump 1 (pprint ("CallExpression: " ++ n.pyStr) s)))))) := by
        funext s
        simp only [visitExpr, List.isEmpty_cons, reduceIte]
        rfl
      rw [h]
      exact tr_cast
        (tr_comp (tr_comp (tr_comp (tr_comp (tr_comp (tr_comp (tr_pprint _)
          (tr_bump 1)) (tr_pprint _)) (tr_bump 1)) hargs) (tr_bump (-1)))
          (tr_bump (-1)))
        (by decide)

theorem visitExprList_tr : ∀ (l : List Expr), Tr (visitExprList l) 0
  | [] => by
    have h : visitExprList [] = fun s => s := by funext s; simp only [visitExprList]
    rw [h]
    exact tr_id
  | a :: rest => by
    have ha := visitExpr_tr a
    have hrest := visitExprList_tr rest
    have h : visitExprList (a :: rest) = fun s => visitExprList rest (visitExpr a s) := by
      funext s; simp only [visitExprList]
    rw [h]
    exact tr_cast (tr_comp ha hrest) (by decide)

end

mutual

theorem visitStmt_tr : ∀ (st : Stmt), Tr (visitStmt st) 0
  | .varDeclaration n v => by
    have hv := visitExpr_tr v
    have h : visitStmt (.varDeclaration n v) = fun s =>
        bump (-2) (visitExpr v (bump 1 (pprint ("Value:")
          (bump 1 (pprint ("VarDeclaration: " ++ n.pyStr) s))))) := by
      funext s; simp only [visitStmt]
    rw [h]
    exact tr_cast
      (tr_comp (tr_comp (tr_comp (tr_comp (tr_comp (tr_pprint _) (tr_bump 1))
        (tr_pprint _)) (tr_bump 1)) hv) (tr_bump (-2)))
      (by decide)
  | .assignment n v => by
    have hv := visitExpr_tr v
    have h : visitStmt (.assignment n v) = fun s =>
        bump (-2) (visitExpr v (bump 1 (pprint ("Value:")
          (bump 1 (pprint ("Assignment: " ++ n.pyStr) s))))) := by
      funext s; simp only [visitStmt]
    rw [h]
    exact tr_cast
      (tr_comp (tr_comp (tr_comp (tr_comp (tr_comp (tr_pprint _) (tr_bump 1))
        (tr_pprint _)) (tr_bump 1)) hv) (tr_bump (-2)))
      (by decide)
  | .ifStatement c tb eb => by
    have hc := visitExpr_tr c
    have htb := visitBlock_tr tb
    cases eb with
    | none =>
      have h : visitStmt (.ifStatement c tb Option.none) = fun s =>
          bump (-1) (bump (-1) (visitBlock tb (bump 1 (pprint ("Then:")
            (bump (-1) (visitExpr c (bump 1 (pprint ("Condition:")
              (bump 1 (pprint ("IfStatement:") s)))))))))) := by
        funext s; simp only [visitStmt]
      rw [h]
      exact tr_cast
        (tr_comp (tr_comp (tr_comp (tr_comp (tr_comp (tr_comp (tr_comp (tr_comp
          (tr_comp (tr_comp (tr_pprint _) (tr_bump 1)) (tr_pprint _)) (tr_bump 1))
          hc) (tr_bump (-1))) (tr_pprint _)) (tr_bump 1)) htb) (tr_bump (-1)))
          (tr_bump (-1)))
        (by decide)
    | some e =>
      have heb := visitBlock_tr e
      have h : visitStmt (.ifStatement c tb (some e)) = fun s =>
          bump (-1) (bump (-1) (visitBlock e (bump 1 (pprint ("Else:")
            (bump (-1) (visitBlock tb (bump 1 (pprint ("Then:")
              (bump (-1) (visitExpr c (bump 1 (pprint ("Condition:")
                (bump 1 (pprint ("IfStatement:") s)))))))))))))) := by
        funext s; simp only [visitStmt]
      rw [h]
      exact tr_cast
        (tr_comp (tr_comp (tr_comp (tr_comp (tr_comp (tr_comp (tr_comp (tr_comp
          (tr_comp (tr_comp (tr_comp (tr_comp (tr_comp (tr_comp
          (tr_pprint _) (tr_bump 1)) (tr_pprint _)) (tr_bump 1))
          hc) (tr_bump (-1))) (tr_pprint _)) (tr_bump 1)) htb) (tr_bump (-1)))
          (tr_pprint _)) (tr_bump 1)) heb) (tr_bump (-1)))
          (tr_bump (-1)))
        (by decide)
  | .whileStatement c b => by
    have hc := visitExpr_tr c
    have hb := visitBlock_tr b
    have h : visitStmt (.whileStatement c b) = fun s =>
        bump (-1) (bump (-1) (visitBlock b (bump 1 (pprint ("Body:")
          (bump (-1) (visitExpr c (bump 1 (pprint ("Condition:")
            (bump 1 (pprint ("WhileStatement:") s)))))))))) := by
      funext s; simp only [visitStmt]
    rw [h]
    exact tr_cast
      (tr_comp (tr_comp (tr_comp (tr_comp (tr_comp (tr_comp (tr_comp (tr_comp
        (tr_comp (tr_comp (tr_pprint _) (tr_bump 1)) (tr_pprint _)) (tr_bump 1))
        hc) (tr_bump (-1))) (tr_pprint _)) (tr_bump 1)) hb) (tr_bump (-1)))
        (tr_bump (-1)))
      (by decide)
  | .functionDeclaration n ps b => by
    have hb := visitBlock_tr b
    have h : visitStmt (.functionDeclaration n ps b) = fun s =>
        bump (-1) (bump (-1) (visitBlock b (bump 1 (pprint ("Body:")
          (pprint ("Parameters: " ++ String.intercalate (", ") (ps.map TValue.pyStr))
            (bump 1 (pprint ("FunctionDeclaration: " ++ n.pyStr) s))))))) := by
      funext s; simp only [visitStmt]
    rw [h]
    exact tr_cast
      (tr_comp (tr_comp (tr_comp (tr_comp (tr_comp (tr_comp (tr_comp
        (tr_pprint _) (tr_bump 1)) (tr_pprint _)) (tr_pprint _)) (tr_bump 1))
        hb) (tr_bump (-1))) (tr_bump (-1)))
      (by decide)
  | .returnStatement v => by
    have hv := visitExpr_tr v
    have h : visitStmt (.returnStatement v) = fun s =>
        bump (-1) (visitExpr v (bump 1 (pprint ("ReturnStatement:") s))) := by
      funext s; simp only [visitStmt]
    rw [h]
    exact tr_cast
      (tr_comp (tr_comp (tr_comp (tr_pprint _) (tr_bump 1)) hv) (tr_bump (-1)))
      (by decide)
  | .expressionStatement v => by
    have hv := visitExpr_tr v
    have h : visitStmt (.expressionStatement v) = fun s =>
        bump (-1) (visitExpr v (bump 1 (pprint ("ExpressionStatement:") s))) := by
      funext s; simp only [visitStmt]
    rw [h]
    exact tr_cast
      (tr_comp (tr_comp (tr_comp (tr_pprint _) (tr_bump 1)) hv) (tr_bump (-1)))
      (by decide)

theorem visitBlock_tr : ∀ (b : Block), Tr (visitBlock b) 0
  | .mk statements => by
    have hs := visitStmtList_tr statements
    have h : visitBlock (.mk statements) = fun s =>
        bump (-1) (visitStmtList statements (bump 1 (pprint ("Block:") s))) := by
      funext s; simp only [visitBlock]
    rw [h]
    exact tr_cast
      (tr_comp (tr_comp (tr_comp (tr_pprint _) (tr_bump 1)) hs) (tr_bump (-1)))
      (by decide)

theorem visitStmtList_tr : ∀ (l : List Stmt), Tr (visitStmtList l) 0
  | [] => by
    have h : visitStmtList [] = fun s => s := by funext s; simp only [visitStmtList]
    rw [h]
    exact tr_id
  | st :: rest => by
    have hst := visitStmt_tr st
    have hrest := visitStmtList_tr rest
    have h : visitStmtList (st :: rest) = fun s => visitStmtList rest (visitStmt st s) := by
      funext s; simp only [visitStmtList]
    rw [h]
    exact tr_cast (tr_comp hst hrest) (by decide)

end

theorem visitProgram_tr (p : Program) : Tr (visitProgram p) 0 := by
  obtain ⟨statements⟩ := p
  have hs := visitStmtList_tr statements
  have h : visitProgram (.mk statements) = fun s =>
      bump (-1) (visitStmtList statements (bump 1 (pprint ("Program:") s))) := by
    funext s; simp only [visitProgram]
  rw [h]
  exact tr_cast
    (tr_comp (tr_comp (tr_comp (tr_pprint _) (tr_bump 1)) hs) (tr_bump (-1)))
    (by decide)

theorem tr_props {fn : PV → PV} (h : Tr fn 0) (s : PV) :
    (fn s).indent_level = s.indent_level ∧
    (fn s).out = s.out ++ (fn ⟨s.indent_level, []⟩).out ∧
    (fn (fn s)).out =
      s.out ++ (fn ⟨s.indent_level, []⟩).out ++ (fn ⟨s.indent_level, []⟩).out := by
  have hs : s = ⟨s.indent_level, s.out⟩ := rfl
  have h1 := h s.indent_level s.out
  refine ⟨?_, ?_, ?_⟩
  · rw [hs, h1]
    show s.indent_level + 0 = s.indent_level
    omega
  · rw [hs, h1]
  · have h2 := h (s.indent_level + 0) (s.out ++ (fn ⟨s.indent_level, []⟩).out)
    rw [hs, h1, h2]
    show (s.out ++ (fn ⟨s.indent_level, []⟩).out) ++ (fn ⟨s.indent_level + 0, []⟩).out =
      s.out ++ (fn ⟨s.indent_level, []⟩).out ++ (fn ⟨s.indent_level, []⟩).out
    rw [show s.indent_level + 0 = s.indent_level from by omega]

end Visitor

/-
  Claim theorems.
-/

/-- Claim C1 (code bug): the spec says parse() always returns a complete
Program and only a lex fault is unrecoverable, and Parser.error documents
itself as reporting without crashing; but on the source text
if (1) followed by a block containing a stray closing parenthesis and a
trailing identifier, panic-mode synchronization skips past the EOF token,
current_token becomes None inside parse_block, and parse_factor then
dereferences None (token.type) — an uncaught AttributeError that aborts the
whole parse even though only syntax faults occurred. -/
theorem c1_parse_crashes_on_syntax_fault :
    run_parse ("if (1) \x7b ) x") 64 = .pyCrash := by rfl

/-- Claim C2 counterexample: parse_block entered on an identifier token (not
an opening brace) does not leave the cursor unchanged — Parser.error runs
panic-mode synchronization, which consumes the unexpected ID token and the
EOF token, moving the cursor from 0 to 2. -/
theorem c2_cursor_moves_counterexample :
    Parser.init ("x") = .ok c2s0 ∧
    Parser.parse_block 5 c2s0 = .ok (Block.mk [], c2s1) ∧
    c2s0.current_token_index = 0 ∧
    c2s1.current_token_index = 2 := by
  exact ⟨rfl, rfl, rfl, rfl⟩

/-- Claim C2 (amended): whenever parse_block is entered and the current token
is not an opening brace, it reports a fault and returns an empty Block; the
fault report itself performs panic-mode synchronization, so the unexpected
token may be consumed — the cursor is unchanged precisely when the
unexpected token is EOF or a non-semicolon synchronizing token. -/
theorem c2_block_missing_lbrace_amended (f : Nat) (s : Parser.ParserSt)
    (hpk : Parser.peek .LBRACE s = false) :
    Parser.parse_block (f + 1) s = .ok (Block.mk [], Parser.error blockMsg s) ∧
    (Parser.error blockMsg s).had_error = true ∧
    (∀ t, Parser.current_token s = some t →
      t.type = .EOF ∨ (t.type ∈ Parser.sync_tokens ∧ t.type ≠ .SEMI) →
      (Parser.error blockMsg s).current_token_index = s.current_token_index) := by
  refine ⟨?_, Parser.error_had_error _ _, ?_⟩
  · unfold Parser.parse_block
    rw [hpk]
    simp only [Bool.false_eq_true, not_false_iff, if_pos]
    rfl
  · intro t h hcase
    rcases hcase with hEOF | ⟨hmem, hnsemi⟩
    · rw [Parser.error_eof_eq blockMsg s t h hEOF]
    · rw [Parser.error_fix_eq blockMsg s t h hmem hnsemi]

/-- Claim C2 witness: on a state whose current token is the RBRACE
synchronizing token, parse_block reports the fault and leaves the cursor in
place. -/
theorem c2_witness :
    Parser.peek .LBRACE c4s0 = false ∧
    Parser.parse_block 6 c4s0 = .ok (Block.mk [], Parser.error blockMsg c4s0) ∧
    (Parser.error blockMsg c4s0).current_token_index = c4s0.current_token_index := by
  have h := c2_block_missing_lbrace_amended 5 c4s0 (by rfl)
  exact ⟨rfl, h.1, h.2.2 (Token.mk .RBRACE (.str ("\x7d")) 1 1) rfl
    (Or.inr ⟨by decide, by decide⟩)⟩

/-- Claim C4 counterexample: an expectation mismatch (eat SEMI) on a state
whose current token is RBRACE sets the fault flag but the cursor does not
strictly advance and end-of-input is not reached: the current token stays
the same RBRACE token, because RBRACE is already in the synchronizing set
and is not consumed. -/
theorem c4_no_progress_counterexample :
    Parser.init ("\x7d") = .ok c4s0 ∧
    (Parser.eat .SEMI c4s0).had_error = true ∧
    (Parser.eat .SEMI c4s0).current_token_index = 0 ∧
    c4s0.current_token_index = 0 ∧
    Parser.current_token (Parser.eat .SEMI c4s0) =
      some (Token.mk .RBRACE (.str ("\x7d")) 1 1) := by
  exact ⟨rfl, rfl, rfl, rfl, rfl⟩

/-- Claim C4 (amended): on every expectation mismatch the parser sets the
fault flag and never moves the cursor backward. When the mismatching token
is EOF, nothing else happens (silent record, cursor unchanged). Otherwise
the recovery discards tokens until the current kind is in the synchronizing
set or the tokens are exhausted, additionally consuming a semicolon stop
token; the cursor strictly advances exactly when the mismatching token is a
semicolon or lies outside the synchronizing set, and stays put when it is a
non-semicolon synchronizing token. -/
theorem c4_eat_mismatch_amended (tt : TokenType) (s : Parser.ParserSt) (t : Token)
    (h : Parser.current_token s = some t) (ht : t.type ≠ tt) :
    (Parser.eat tt s).had_error = true ∧
    s.current_token_index ≤ (Parser.eat tt s).current_token_index ∧
    (Parser.eat tt s).tokens = s.tokens ∧
    (t.type = .EOF → Parser.eat tt s = { s with had_error := true }) ∧
    (t.type ≠ .EOF →
      (Parser.current_token (Parser.eat tt s) = Option.none ∨
       (∃ u, Parser.current_token (Parser.eat tt s) = some u ∧
         u.type ∈ Parser.sync_tokens ∧ u.type ≠ .SEMI) ∨
       (∃ u, s.tokens.get? ((Parser.eat tt s).current_token_index - 1) = some u ∧
         u.type = .SEMI))) ∧
    (t.type ≠ .EOF → t.type ∉ Parser.sync_tokens →
      s.current_token_index < (Parser.eat tt s).current_token_index) ∧
    (t.type = .SEMI →
      (Parser.eat tt s).current_token_index = s.current_token_index + 1) ∧
    (t.type ∈ Parser.sync_tokens → t.type ≠ .SEMI →
      (Parser.eat tt s).current_token_index = s.current_token_index) := by
  rw [Parser.eat_mismatch tt s t h ht]
  refine ⟨Parser.error_had_error _ _, Parser.error_mono _ _, Parser.error_tokens _ _,
    ?_, ?_, ?_, ?_, ?_⟩
  · intro hEOF
    exact Parser.error_eof_eq _ s t h hEOF
  · intro hne
    exact Parser.error_stop _ s t h hne
  · intro hne hns
    exact Parser.error_strict _ s t h hne hns
  · intro hsem
    rw [Parser.error_semi_eq _ s t h hsem]
  · intro hmem hnsemi
    rw [Parser.error_fix_eq _ s t h hmem hnsemi]

/-- Claim C4 witness: the amended statement instantiated on a state whose
current token is a closing brace, mismatching an expected semicolon. -/
theorem c4_witness :
    Parser.current_token c4s0 = some (Token.mk .RBRACE (.str ("\x7d")) 1 1) ∧
    (Parser.eat .SEMI c4s0).had_error = true ∧
    (Parser.eat .SEMI c4s0).current_token_index = c4s0.current_token_index := by
  have h := c4_eat_mismatch_amended .SEMI c4s0 (Token.mk .RBRACE (.str ("\x7d")) 1 1)
    rfl (by decide)
  exact ⟨rfl, h.1, h.2.2.2.2.2.2.2 (by decide) (by decide)⟩

/-- Claim C7: parsing 2 + 3 * 4 as an expression statement yields
BinaryOp(IntegerLiteral 2, +, BinaryOp(IntegerLiteral 3, *, IntegerLiteral 4))
— multiplication binds tighter than addition — and both binary levels
associate to the left, witnessed on 2 - 3 + 4 and 2 * 3 * 4. The first input
is the bare spec sample (its missing semicolon only flips the fault flag,
recorded silently at EOF; the same tree results with the semicolon). -/
theorem c7_precedence_left_assoc :
    run_parse ("2 + 3 * 4") 64 =
      .ok (Program.mk [Stmt.expressionStatement
        (Expr.binaryOp (IntegerLiteral (.int 2)) (.str ("+"))
          (Expr.binaryOp (IntegerLiteral (.int 3)) (.str ("*"))
            (IntegerLiteral (.int 4))))]) true ∧
    run_parse ("2 + 3 * 4;") 64 =
      .ok (Program.mk [Stmt.expressionStatement
        (Expr.binaryOp (IntegerLiteral (.int 2)) (.str ("+"))
          (Expr.binaryOp (IntegerLiteral (.int 3)) (.str ("*"))
            (IntegerLiteral (.int 4))))]) false ∧
    run_parse ("2 - 3 + 4;") 64 =
      .ok (Program.mk [Stmt.expressionStatement
        (Expr.binaryOp
          (Expr.binaryOp (IntegerLiteral (.int 2)) (.str ("-"))
            (IntegerLiteral (.int 3)))
          (.str ("+")) (IntegerLiteral (.int 4)))]) false ∧
    run_parse ("2 * 3 * 4;") 64 =
      .ok (Program.mk [Stmt.expressionStatement
        (Expr.binaryOp
          (Expr.binaryOp (IntegerLiteral (.int 2)) (.str ("*"))
            (IntegerLiteral (.int 3)))
          (.str ("*")) (IntegerLiteral (.int 4)))]) false := by
  exact ⟨rfl, rfl, rfl, rfl⟩

/-- Claim C10: Parser.error invoked while the current token is the EOF token
sets the fault flag and returns immediately: no diagnostic line is printed,
no synchronization runs, and the whole state — cursor included — is
otherwise unchanged. -/
theorem c10_error_at_eof (msg : String) (s : Parser.ParserSt) (t : Token)
    (h : Parser.current_token s = some t) (ht : t.type = .EOF) :
    Parser.error msg s = { s with had_error := true } := by
  exact Parser.error_eof_eq msg s t h ht

/-- Claim C10 witness: the EOF-silence of Parser.error on the initial state
of the empty source text. -/
theorem c10_witness :
    Parser.current_token c10s = some (Token.mk .EOF .none 1 1) ∧
    Parser.error ("m") c10s = { c10s with had_error := true } := by
  exact ⟨rfl, c10_error_at_eof ("m") c10s (Token.mk .EOF .none 1 1) rfl rfl⟩

/-- Claim C9: a PrintVisitor traversal of any AST node restores the shared
indent counter to its value before the call — every increment is matched by
a decrement on every path — and the lines it appends depend only on the
entry indent, so traversing the same tree twice with the same visitor
appends the identical line block twice. This holds for every expression,
statement, block and program node. -/
theorem c9_print_visitor_indent :
    (∀ (e : Expr) (s : Visitor.PV),
      (Visitor.visitExpr e s).indent_level = s.indent_level ∧
      (Visitor.visitExpr e s).out =
        s.out ++ (Visitor.visitExpr e ⟨s.indent_level, []⟩).out ∧
      (Visitor.visitExpr e (Visitor.visitExpr e s)).out =
        s.out ++ (Visitor.visitExpr e ⟨s.indent_level, []⟩).out ++
          (Visitor.visitExpr e ⟨s.indent_level, []⟩).out) ∧
    (∀ (st : Stmt) (s : Visitor.PV),
      (Visitor.visitStmt st s).indent_level = s.indent_level ∧
      (Visitor.visitStmt st s).out =
        s.out ++ (Visitor.visitStmt st ⟨s.indent_level, []⟩).out ∧
      (Visitor.visitStmt st (Visitor.visitStmt st s)).out =
        s.out ++ (Visitor.visitStmt st ⟨s.indent_level, []⟩).out ++
          (Visitor.visitStmt st ⟨s.indent_level, []⟩).out) ∧
    (∀ (b : Block) (s : Visitor.PV),
      (Visitor.visitBlock b s).indent_level = s.indent_level ∧
      (Visitor.visitBlock b s).out =
        s.out ++ (Visitor.visitBlock b ⟨s.indent_level, []⟩).out ∧
      (Visitor.visitBlock b (Visitor.visitBlock b s)).out =
        s.out ++ (Visitor.visitBlock b ⟨s.indent_level, []⟩).out ++
          (Visitor.visitBlock b ⟨s.indent_level, []⟩).out) ∧
    (∀ (p : Program) (s : Visitor.PV),
      (Visitor.visitProgram p s).indent_level = s.indent_level ∧
      (Visitor.visitProgram p s).out =
        s.out ++ (Visitor.visitProgram p ⟨s.indent_level, []⟩).out ∧
      (Visitor.visitProgram p (Visitor.visitProgram p s)).out =
        s.out ++ (Visitor.visitProgram p ⟨s.indent_level, []⟩).out ++
          (Visitor.visitProgram p ⟨s.indent_level, []⟩).out) := by
  exact ⟨fun e s => Visitor.tr_props (Visitor.visitExpr_tr e) s,
    fun st s => Visitor.tr_props (Visitor.visitStmt_tr st) s,
    fun b s => Visitor.tr_props (Visitor.visitBlock_tr b) s,
    fun p s => Visitor.tr_props (Visitor.visitProgram_tr p) s⟩

/-- Claim C6: Lexer.tokenize terminates on every source text — the
fuel-exhaustion branch of the embedding is unreachable, every non-EOF token
strictly advances the scan position — and whenever a token list is produced
it consists of non-EOF tokens followed by exactly one final EOF token: never
more than one EOF, never zero, and no EOF anywhere except the last
position. -/
theorem c6_tokenize_terminates_one_eof :
    (∀ text : String, Lexer.tokenize (Lexer.mkLexer text) ≠ .error .fuel) ∧
    (∀ (text : String) (toks : List Token),
      Lexer.tokenize (Lexer.mkLexer text) = .ok toks →
      ∃ ts tl, toks = ts ++ [tl] ∧ tl.type = .EOF ∧ ∀ u ∈ ts, u.type ≠ .EOF) := by
  constructor
  · intro text
    exact Lexer.tokenize_go_nofuel _ (Lexer.mkLexer text) [] (Nat.le_refl _)
  · intro text toks h
    exact Lexer.tokenize_go_struct _ (Lexer.mkLexer text) [] toks h (by intro u hu; cases hu)

/-- Claim C6 witness: the spec sample var x = 10; tokenizes to the expected
six tokens, and the structure theorem applies to that concrete list. -/
theorem c6_witness :
    Lexer.tokenize (Lexer.mkLexer ("var x = 10;")) = .ok c6toks ∧
    (∃ ts tl, c6toks = ts ++ [tl] ∧ tl.type = .EOF ∧ ∀ u ∈ ts, u.type ≠ .EOF) := by
  exact ⟨rfl, c6_tokenize_terminates_one_eof.2 ("var x = 10;") c6toks rfl⟩

/-- Claim C3 counterexample: call arguments are parsed with parse_expression,
the additive level, not the full logical-or grammar; on
f(a || b, c < d); the first argument stops at the identifier a, the
following || token mismatches the expected closing parenthesis, recovery
swallows the rest, and the resulting call has exactly one argument — not
the two the claim requires. -/
theorem c3_call_args_counterexample :
    run_parse ("f(a || b, c < d);") 64 =
      .ok (Program.mk [Stmt.expressionStatement
        (Expr.callExpression (.str ("f")) [Expr.identifier (.str ("a"))])]) true ∧
    firstStmtCallArgCount (run_parse ("f(a || b, c < d);") 64) = some 1 := by
  exact ⟨rfl, rfl⟩

/-- Claim C3 (amended): in primary position an identifier is parsed as a
call exactly when the token immediately after it is an opening parenthesis
(otherwise it yields a bare Identifier node); each call argument is parsed
with parse_expression — the additive precedence level — rather than the full
logical-or grammar, so f(a + b, c); yields a two-argument call while
operators below additive precedence cannot appear unparenthesized in an
argument. -/
theorem c3_call_dispatch_amended (f : Nat) (s : Parser.ParserSt) (t : Token)
    (h : Parser.current_token s = some t) (ht : t.type = .ID) :
    ((Parser.peek_ahead s 1).type = .LPAREN →
      Parser.parse_factor (f + 1) s = Parser.parse_call_expression f s) ∧
    ((Parser.peek_ahead s 1).type ≠ .LPAREN →
      Parser.parse_factor (f + 1) s = .ok (Expr.identifier t.value, Parser.eat .ID s)) ∧
    run_parse ("f(a + b, c);") 64 =
      .ok (Program.mk [Stmt.expressionStatement
        (Expr.callExpression (.str ("f"))
          [Expr.binaryOp (Expr.identifier (.str ("a"))) (.str ("+"))
            (Expr.identifier (.str ("b"))),
           Expr.identifier (.str ("c"))])]) false := by
  refine ⟨?_, ?_, rfl⟩
  · intro hpk
    unfold Parser.parse_factor
    rw [h]
    simp only [ht, hpk, reduceIte]
    rfl
  · intro hpk
    unfold Parser.parse_factor
    rw [h]
    simp only [ht, hpk, reduceIte, if_neg, not_false_iff]
    rfl

/-- Claim C3 witness: the amended dispatch instantiated on the initial state
of f(a + b, c); whose current token is the identifier f followed by an
opening parenthesis. -/
theorem c3_witness :
    (Parser.peek_ahead c3s0 1).type = .LPAREN ∧
    Parser.parse_factor 33 c3s0 = Parser.parse_call_expression 32 c3s0 := by
  exact ⟨rfl, (c3_call_dispatch_amended 32 c3s0
    (Token.mk .ID (.str ("f")) 1 1) rfl rfl).1 rfl⟩

/-- Claim C5 counterexample: on x = ; y = 1; the missing-expression fault is
reported and the placeholder Assignment(x, IntegerLiteral 0) is produced,
but tokens beyond the first semicolon ARE consumed: the fault report itself
synchronizes past that semicolon, the subsequent mandatory eat of
a semicolon then mismatches on y and synchronizes again, swallowing the
whole second statement — the resulting program has a single statement. -/
theorem c5_assignment_counterexample :
    run_parse ("x = ; y = 1;") 64 =
      .ok (Program.mk [Stmt.assignment (.str ("x")) (IntegerLiteral (.int 0))]) true := by
  exact rfl

/-- Claim C5 (amended): when an assignment has its assign sign immediately
followed by a semicolon, the parser reports the missing-expression fault —
whose panic-mode synchronization already consumes that semicolon, leaving
the cursor three tokens past the start — then performs its mandatory eat of
a semicolon on whatever follows (which can report a further fault and
consume additional tokens), and returns an Assignment node whose value is
the IntegerLiteral 0 placeholder. -/
theorem c5_assignment_missing_expr_amended (f : Nat) (s : Parser.ParserSt)
    (t u v : Token)
    (h : Parser.current_token s = some t) (ht : t.type = .ID)
    (hu : s.tokens.get? (s.current_token_index + 1) = some u) (hut : u.type = .ASSIGN)
    (hv : s.tokens.get? (s.current_token_index + 2) = some v) (hvt : v.type = .SEMI) :
    Parser.parse_assignment (f + 1) s =
      .ok (Stmt.assignment t.value (IntegerLiteral (.int 0)),
        Parser.eat .SEMI (Parser.error assignMsg
          (Parser.eat .ASSIGN (Parser.eat .ID s)))) ∧
    (Parser.error assignMsg (Parser.eat .ASSIGN (Parser.eat .ID s))).current_token_index
      = s.current_token_index + 3 := by
  have h1 : Parser.eat .ID s = { s with current_token_index := s.current_token_index + 1 } :=
    Parser.eat_match .ID s t h ht
  have hcur1 : Parser.current_token
      ({ s with current_token_index := s.current_token_index + 1 } : Parser.ParserSt) =
      some u := hu
  have h2 : Parser.eat .ASSIGN (Parser.eat .ID s) =
      { s with current_token_index := s.current_token_index + 2 } := by
    rw [h1]
    rw [Parser.eat_match .ASSIGN _ u hcur1 hut]
  have hcur2 : Parser.current_token
      ({ s with current_token_index := s.current_token_index + 2 } : Parser.ParserSt) =
      some v := hv
  have hpk : Parser.peek .SEMI
      ({ s with current_token_index := s.current_token_index + 2 } : Parser.ParserSt) =
      true := by
    unfold Parser.peek
    rw [hcur2]
    simp [hvt]
  constructor
  · simp only [Parser.parse_assignment, h, h2, hpk, reduceIte]
    rw [← h2]
    rfl
  · rw [h2, Parser.error_semi_eq assignMsg _ v hcur2 hvt]

/-- Claim C5 witness: the amended statement instantiated on the initial
state of x = ; y = 1; — the fault synchronization stops three tokens in,
just past the first semicolon. -/
theorem c5_witness :
    Parser.parse_assignment 41 c5s0 =
      .ok (Stmt.assignment (.str ("x")) (IntegerLiteral (.int 0)),
        Parser.eat .SEMI (Parser.error assignMsg
          (Parser.eat .ASSIGN (Parser.eat .ID c5s0)))) ∧
    (Parser.error assignMsg (Parser.eat .ASSIGN (Parser.eat .ID c5s0))).current_token_index
      = 3 := by
  exact c5_assignment_missing_expr_amended 40 c5s0
    (Token.mk .ID (.str ("x")) 1 1) (Token.mk .ASSIGN (.str ("=")) 1 3)
    (Token.mk .SEMI (.str (";")) 1 5) rfl rfl rfl rfl rfl rfl

/-- Claim C8: after the then block, an else followed immediately by if
recursively parses an if statement and wraps it in a one-statement Block —
the else block is a Block containing exactly that nested IfStatement — while
a plain else parses a block directly; the two spec samples confirm the
resulting shapes (no flattened else-if node). -/
theorem c8_else_if_nesting :
    (∀ (f : Nat) (s : Parser.ParserSt) (r : Stmt) (s2 : Parser.ParserSt),
      Parser.peek .ELSE s = true →
      Parser.peek .IF (Parser.eat .ELSE s) = true →
      Parser.parse_if_statement f (Parser.eat .ELSE s) = .ok (r, s2) →
      Parser.parse_else_clause (f + 1) s = .ok (some (Block.mk [r]), s2)) ∧
    (∀ (f : Nat) (s : Parser.ParserSt) (b : Block) (s2 : Parser.ParserSt),
      Parser.peek .ELSE s = true →
      Parser.peek .IF (Parser.eat .ELSE s) = false →
      Parser.parse_block f (Parser.eat .ELSE s) = .ok (b, s2) →
      Parser.parse_else_clause (f + 1) s = .ok (some b, s2)) ∧
    run_parse ("if (a) \x7b 1; \x7d else if (b) \x7b 2; \x7d") 64 =
      .ok (Program.mk [Stmt.ifStatement (Expr.identifier (.str ("a")))
        (Block.mk [Stmt.expressionStatement (IntegerLiteral (.int 1))])
        (some (Block.mk [Stmt.ifStatement (Expr.identifier (.str ("b")))
          (Block.mk [Stmt.expressionStatement (IntegerLiteral (.int 2))])
          Option.none]))]) false ∧
    run_parse ("if (a) \x7b \x7d else \x7b 2; \x7d") 64 =
      .ok (Program.mk [Stmt.ifStatement (Expr.identifier (.str ("a")))
        (Block.mk [])
        (some (Block.mk [Stmt.expressionStatement (IntegerLiteral (.int 2))]))]) false := by
  refine ⟨?_, ?_, rfl, rfl⟩
  · intro f s r s2 h1 h2 h3
    simp only [Parser.parse_else_clause, h1, h2, h3, reduceIte]
  · intro f s b s2 h1 h2 h3
    simp only [Parser.parse_else_clause, h1, h2, h3, reduceIte,
      Bool.false_eq_true, not_false_iff, if_neg]

/-- Claim C8 witness: the plain-else branch instantiated on the initial
state of an else keyword followed by an empty block. -/
theorem c8_witness :
    Parser.parse_else_clause 33 c8s =
      .ok (some (Block.mk []), { c8s with current_token_index := 3 }) := by
  exact c8_else_if_nesting.2.1 32 c8s (Block.mk [])
    { c8s with current_token_index := 3 } rfl rfl rfl

end MiniPython
